import Mathlib

/-!
# Alerta secrets engine: a shallow embedding

A model of the Vault secrets plugin for Alerta (`package alertasecrets`):
the role registry (`path_roles.go`), the configuration store
(`path_config.go`), the client cache (`backend.go`), the remote client
(`client.go`), issuance (`path_keys.go`) and the lease callbacks
(`alerta_token.go`).

Conventions of the embedding.

* A Go handler returning `(*logical.Response, error)` becomes a value of
  `Except String (Option Response)`: `.error msg` is a non-nil `error` with
  message `msg`, `.ok none` is `(nil, nil)` and `.ok (some r)` is `(r, nil)`.
  The handlers of this package never return both a response and an error.
* A handler that can hit a run-time panic returns an `Outcome`.
* Mutable collaborators (the storage, the backend with its cached client, the
  remote API) are passed in and returned explicitly.
* `time.Duration` is an `Int` number of nanoseconds; arithmetic that can leave
  the `int64` range is wrapped explicitly with `wrapInt64`.
* Go maps with string keys are association lists.
-/

namespace Alerta

/-! ## Machine integers and durations -/

/-- Two's-complement reduction of an integer into the `int64` range. -/
def wrapInt64 (x : Int) : Int :=
  (x + 9223372036854775808) % 18446744073709551616 - 9223372036854775808

/-- The constant `time.Second`, in nanoseconds. -/
def Second : Int := 1000000000

/-- The conversion `time.Duration(n) * time.Second` of a number of seconds held
in an `int`. -/
def secondsToDuration (n : Int) : Int := wrapInt64 (wrapInt64 n * Second)

/-- The largest number of seconds the framework hands to a handler for a field
of type `TypeDurationSecond`: the field is parsed into a `time.Duration`
first and then truncated to whole seconds, so it is at most
`math.MaxInt64 / 1e9`; negative values are refused by the framework. -/
def maxDurationSeconds : Int := 9223372036

/-! ## Values held in response data and lease internal data -/

/-- An instant: nanoseconds since the Unix epoch together with the offset, in
seconds east of UTC, of the location the `time.Time` value carries. -/
structure Time where
  unixNano : Int
  offset : Int
  deriving DecidableEq, Repr

/-- A dynamically typed value (`interface{}`) as it occurs in
`map[string]interface{}` data.  `seconds sec nsec` is the `float64` that
`Duration.Seconds` computes as `float64(sec) + float64(nsec)/1e9`; with
`nsec = 0` it is the whole number `sec` exactly. -/
inductive Value where
  | null
  | bool (b : Bool)
  | int (n : Int)
  | str (s : String)
  | strs (l : List String)
  | seconds (sec nsec : Int)
  | time (t : Time)
  deriving DecidableEq, Repr

/-- Lookup in a map represented as an association list. -/
def mapGet {α : Type} (k : String) : List (String × α) → Option α
  | [] => none
  | (k', v) :: rest => if k = k' then some v else mapGet k rest

/-- The method `Duration.Seconds`: whole seconds and the remaining nanoseconds
(both truncated toward zero), to be read as the float described at
`Value.seconds`. -/
def Duration.Seconds (d : Int) : Value :=
  .seconds (Int.tdiv d Second) (Int.tmod d Second)

/-! ## Data model -/

/-- The struct `alertaRoleEntry` of `path_roles.go`. -/
structure alertaRoleEntry where
  User : String := ""
  Scopes : List String := []
  Description : String := ""
  TTL : Int := 0
  MaxTTL : Int := 0
  Name : String := ""
  deriving DecidableEq, Repr

/-- The struct `alertaConfig` of `path_config.go`. -/
structure alertaConfig where
  ApiURL : String := ""
  AuthKey : String := ""
  deriving DecidableEq, Repr

/-- The struct `alertaClient` of `client.go`; the `HTTPClient` field (a fixed
ten-second timeout) carries no data of its own. -/
structure alertaClient where
  ApiURL : String
  AuthKey : String
  deriving DecidableEq, Repr

/-- The struct `alertaBackend`: the cached client (`nil` is `none`). -/
structure alertaBackend where
  client : Option alertaClient := none
  deriving DecidableEq, Repr

/-- The lease part of a response (`logical.Secret`): the lease options the
package touches and the internal data. -/
structure Secret where
  TTL : Int := 0
  MaxTTL : Int := 0
  InternalData : List (String × Value) := []
  deriving DecidableEq, Repr

/-- A `logical.Response`. -/
structure Response where
  Secret : Option Secret := none
  Data : List (String × Value) := []
  deriving DecidableEq, Repr

/-- The function `logical.ErrorResponse`: a response whose data holds the
message under `error`. -/
def ErrorResponse (text : String) : Response :=
  { Secret := none, Data := [("error", .str text)] }

/-- The operations a request can carry (`logical.Operation`). -/
inductive Operation where
  | CreateOperation
  | ReadOperation
  | UpdateOperation
  | DeleteOperation
  | ListOperation
  | RevokeOperation
  | RenewOperation
  deriving DecidableEq, Repr

deriving instance DecidableEq for Except

/-- Result of a handler that may stop with a run-time panic. -/
inductive Outcome (α : Type) where
  | done (r : α)
  | panic (msg : String)
  deriving DecidableEq, Repr

/-! ## Storage -/

/-- A stored blob, described by what it is the JSON encoding of.
`roleJSON r` is the document `logical.StorageEntryJSON` writes for the role
`r`, `configJSON c` the one it writes for the configuration `c`, and
`undecodable` stands for bytes that `DecodeJSON` rejects. -/
inductive StorageEntry where
  | roleJSON (r : alertaRoleEntry)
  | configJSON (c : alertaConfig)
  | undecodable
  deriving DecidableEq, Repr

/-- The method `StorageEntry.DecodeJSON` into an `alertaRoleEntry`.  A JSON
object with none of the role's keys leaves every field at its zero value. -/
def StorageEntry.decodeRole : StorageEntry → Except String alertaRoleEntry
  | .roleJSON r => .ok r
  | .configJSON _ => .ok {}
  | .undecodable => .error "invalid character in stored entry"

/-- The method `StorageEntry.DecodeJSON` into an `alertaConfig`. -/
def StorageEntry.decodeConfig : StorageEntry → Except String alertaConfig
  | .configJSON c => .ok c
  | .roleJSON _ => .ok {}
  | .undecodable => .error "invalid character in stored entry"

/-- The in-memory `logical.Storage` used by the package's tests: a map from
paths to blobs, kept in key order. -/
structure Storage where
  entries : List (String × StorageEntry) := []
  deriving DecidableEq, Repr

/-- Insertion into a key-ordered association list, replacing an equal key. -/
def putEntries (k : String) (v : StorageEntry) :
    List (String × StorageEntry) → List (String × StorageEntry)
  | [] => [(k, v)]
  | (k', v') :: rest =>
    if k = k' then (k, v) :: rest
    else if k < k' then (k, v) :: (k', v') :: rest
    else (k', v') :: putEntries k v rest

/-- The method `Storage.Get`: `(nil, nil)` for an absent key. -/
def Storage.Get (s : Storage) (key : String) : Except String (Option StorageEntry) :=
  .ok (mapGet key s.entries)

/-- The method `Storage.Put`. -/
def Storage.Put (s : Storage) (key : String) (v : StorageEntry) : Except String Storage :=
  .ok { entries := putEntries key v s.entries }

/-- The method `Storage.Delete`; deleting an absent key is not an error. -/
def Storage.Delete (s : Storage) (key : String) : Except String Storage :=
  .ok { entries := s.entries.filter (fun e => e.1 ≠ key) }

/-! ## Request fields -/

/-- The parsed request fields (`framework.FieldData`) of the `role/<name>`
path: for each field of the schema, `some v` when the request supplied it
(`GetOk` answers `v, true`) and `none` when it did not.  `ttl` and `max_ttl`
are whole seconds, as `TypeDurationSecond` delivers them. -/
structure FieldData where
  name : Option String := none
  user : Option String := none
  scopes : Option (List String) := none
  description : Option String := none
  ttl : Option Int := none
  max_ttl : Option Int := none
  deriving DecidableEq, Repr

/-- Schema default of `description` in `pathRole`. -/
def descriptionDefault : String := "Created by Vault"

/-- Schema default of `ttl` in `pathRole`: none is declared, so `Get` answers
the zero value of the type. -/
def ttlDefault : Int := 0

/-- Schema default of `max_ttl` in `pathRole`: the declared `Default: "90d"`,
which the framework parses as ninety days and hands over in whole seconds. -/
def maxTTLDefault : Int := 90 * 24 * 3600

/-- The call `d.Get("description")`: the supplied value or the schema default. -/
def FieldData.Get_description (d : FieldData) : String :=
  d.description.getD descriptionDefault

/-- The call `d.Get("ttl")`. -/
def FieldData.Get_ttl (d : FieldData) : Int := d.ttl.getD ttlDefault

/-- The call `d.Get("max_ttl")`. -/
def FieldData.Get_max_ttl (d : FieldData) : Int := d.max_ttl.getD maxTTLDefault

/-! ## Role registry (`path_roles.go`) -/

/-- The method `alertaRoleEntry.toResponseData`. -/
def alertaRoleEntry.toResponseData (r : alertaRoleEntry) : List (String × Value) :=
  [ ("ttl", Duration.Seconds r.TTL),
    ("max_ttl", Duration.Seconds r.MaxTTL),
    ("user", .str r.User),
    ("scopes", .strs r.Scopes),
    ("description", .str r.Description) ]

/-- The method `getRole`: `.ok none` is the `(nil, nil)` of an absent role. -/
def getRole (s : Storage) (name : String) : Except String (Option alertaRoleEntry) :=
  if name = "" then .error "missing role name"
  else
    match s.Get ("role/" ++ name) with
    | .error err => .error err
    | .ok none => .ok none
    | .ok (some entry) =>
      match entry.decodeRole with
      | .error err => .error err
      | .ok role => .ok (some role)

/-- The handler `pathRolesRead`; `name` is `d.Get("name")`. -/
def pathRolesRead (s : Storage) (name : String) : Except String (Option Response) :=
  match getRole s name with
  | .error err => .error err
  | .ok none => .ok none
  | .ok (some entry) => .ok (some { Data := entry.toResponseData })

/-- The function `setRole`.  `logical.StorageEntryJSON` cannot fail on an
`alertaRoleEntry` (strings, a string slice and integers), so its two error
exits are never taken. -/
def setRole (s : Storage) (name : String) (roleEntry : alertaRoleEntry) :
    Except String Storage :=
  s.Put ("role/" ++ name) (.roleJSON roleEntry)

/-- Lines 190–218 of `pathRolesWrite`: the supplied fields are written over
`roleEntry`; on a create a missing `user` or `scopes` is an error and a
missing `description`, `ttl` or `max_ttl` takes the schema default. -/
def mergeFields (createOperation : Bool) (d : FieldData) (roleEntry : alertaRoleEntry) :
    Except String alertaRoleEntry := do
  let r1 ← match d.user with
    | some user => pure { roleEntry with User := user }
    | none => if createOperation then throw "user is required" else pure roleEntry
  let r2 ← match d.scopes with
    | some scopes => pure { r1 with Scopes := scopes }
    | none => if createOperation then throw "scopes is required" else pure r1
  let r3 := match d.description with
    | some description => { r2 with Description := description }
    | none => if createOperation then { r2 with Description := d.Get_description } else r2
  let r4 := match d.ttl with
    | some ttlRaw => { r3 with TTL := secondsToDuration ttlRaw }
    | none => if createOperation then { r3 with TTL := secondsToDuration d.Get_ttl } else r3
  let r5 := match d.max_ttl with
    | some maxTTLRaw => { r4 with MaxTTL := secondsToDuration maxTTLRaw }
    | none =>
      if createOperation then { r4 with MaxTTL := secondsToDuration d.Get_max_ttl } else r4
  pure r5

/-- The handler `pathRolesWrite`, registered for create and update.  It
returns the storage after the call together with the handler's result. -/
def pathRolesWrite (s : Storage) (op : Operation) (d : FieldData) :
    Storage × Except String (Option Response) :=
  match d.name with
  | none => (s, .ok (some (ErrorResponse "missing role name")))
  | some name =>
    match getRole s name with
    | .error err => (s, .error err)
    | .ok stored =>
      let roleEntry := stored.getD {}
      let createOperation := decide (op = Operation.CreateOperation)
      match mergeFields createOperation d roleEntry with
      | .error err => (s, .error err)
      | .ok roleEntry =>
        if roleEntry.MaxTTL ≠ 0 ∧ roleEntry.TTL > roleEntry.MaxTTL then
          (s, .ok (some (ErrorResponse "ttl cannot be greater than max_ttl")))
        else
          match setRole s name roleEntry with
          | .error err => (s, .error err)
          | .ok s' => (s', .ok none)

/-! ## Time formatting (`time.Time.Format`) -/

/-- The helper `appendInt` of package `time`: decimal digits padded with
zeros to `width`, with a leading minus sign for a negative number. -/
def appendInt (x : Int) (width : Nat) : String :=
  let digits := toString x.natAbs
  let padded := String.mk (List.replicate (width - digits.length) '0') ++ digits
  if x < 0 then "-" ++ padded else padded

/-- Proleptic Gregorian date `(year, month, day)` of a day number counted
from 1970-01-01. -/
def civilFromDays (days : Int) : Int × Int × Int :=
  let z := days + 719468
  let era := z / 146097
  let doe := z % 146097
  let yoe := (doe - doe / 1460 + doe / 36524 - doe / 146096) / 365
  let doy := doe - (365 * yoe + yoe / 4 - yoe / 100)
  let mp := (5 * doy + 2) / 153
  let d := doy - (153 * mp + 2) / 5 + 1
  let m := if mp < 10 then mp + 3 else mp - 9
  let y := yoe + era * 400 + (if m ≤ 2 then 1 else 0)
  (y, m, d)

/-- The fractional-seconds element `.999999999` of a layout: nothing for a
whole second, otherwise a dot and nine digits without their trailing zeros. -/
def formatNano (nanosec : Int) : String :=
  if nanosec = 0 then ""
  else "." ++ String.mk (((appendInt nanosec 9).toList.reverse.dropWhile (fun c => c = '0')).reverse)

/-- The zone element `Z07:00` of a layout for an offset in seconds. -/
def formatZone (offset : Int) : String :=
  if offset = 0 then "Z"
  else
    let zone := Int.tdiv offset 60
    let sign := if zone < 0 then "-" else "+"
    let zone := if zone < 0 then -zone else zone
    sign ++ appendInt (zone / 60) 2 ++ ":" ++ appendInt (zone % 60) 2

/-- The date and clock part `2006-01-02T15:04:05` shared by both layouts. -/
def formatDateTime (t : Time) : String :=
  let secs := t.unixNano / 1000000000 + t.offset
  let days := secs / 86400
  let sod := secs % 86400
  let ymd := civilFromDays days
  appendInt ymd.1 4 ++ "-" ++ appendInt ymd.2.1 2 ++ "-" ++ appendInt ymd.2.2 2 ++ "T" ++
    appendInt (sod / 3600) 2 ++ ":" ++ appendInt (sod % 3600 / 60) 2 ++ ":" ++
    appendInt (sod % 60) 2

/-- The call `t.Format(time.RFC3339)`, layout `2006-01-02T15:04:05Z07:00`. -/
def Time.FormatRFC3339 (t : Time) : String :=
  formatDateTime t ++ formatZone t.offset

/-- The call `t.Format(time.RFC3339Nano)`, layout
`2006-01-02T15:04:05.999999999Z07:00`. -/
def Time.FormatRFC3339Nano (t : Time) : String :=
  formatDateTime t ++ formatNano (t.unixNano % 1000000000) ++ formatZone t.offset

/-- The method `Time.Add`. -/
def Time.Add (t : Time) (d : Int) : Time := { t with unixNano := t.unixNano + d }

/-- The method `Time.UTC`. -/
def Time.UTC (t : Time) : Time := { t with offset := 0 }

/-! ## Remote API (`net/http` as seen by `client.go`) -/

/-- A request handed to the HTTP library by `makeRequest`.  A JSON object
body is an association list; `none` is the `nil` body. -/
structure HttpRequest where
  method : String
  url : String
  authorization : String
  contentType : String
  body : Option (List (String × Value))
  deriving DecidableEq, Repr

/-- The struct `CreateKeyResponse` of `client.go`. -/
structure CreateKeyResponse where
  ID : String := ""
  Key : String := ""
  ExpireTime : String := ""
  deriving DecidableEq, Repr

/-- The struct `DeleteKeyResponse` of `client.go`. -/
structure DeleteKeyResponse where
  Status : String := ""
  deriving DecidableEq, Repr

/-- The body of an HTTP response as the caller gets to see it: `unreadable`
when `io.ReadAll` fails, `invalid` when `json.Unmarshal` into the caller's
`responseData` struct fails, and otherwise the decoded envelope (its `status`
and its `data`, absent members being empty strings). -/
inductive HttpBody where
  | unreadable (err : String)
  | invalid (err : String)
  | envelope (status : String) (data : CreateKeyResponse)
  deriving DecidableEq, Repr

/-- What `makeRequest` returns: an error (the request could not be built or
sent), or a response with its status code and body. -/
inductive HttpResult where
  | transportError (err : String)
  | response (statusCode : Nat) (body : HttpBody)
  deriving DecidableEq, Repr

/-- The remote API: its answer to a request, which may depend on the requests
made before, and the log of the requests made so far. -/
structure Remote where
  respond : List HttpRequest → HttpRequest → HttpResult
  log : List HttpRequest := []

/-! ## Configuration and the client cache (`path_config.go`, `client.go`, `backend.go`) -/

/-- The constant `configStoragePath`. -/
def configStoragePath : String := "config"

/-- The function `getConfig`: `.ok none` is the `(nil, nil)` of an absent
configuration. -/
def getConfig (s : Storage) : Except String (Option alertaConfig) :=
  match s.Get configStoragePath with
  | .error err => .error err
  | .ok none => .ok none
  | .ok (some entry) =>
    match entry.decodeConfig with
    | .error err => .error ("error reading root configuration: " ++ err)
    | .ok config => .ok (some config)

/-- The function `newClient`; `none` is the `nil` configuration. -/
def newClient (config : Option alertaConfig) : Except String alertaClient :=
  match config with
  | none => .error "client configuration was nil"
  | some config =>
    if config.ApiURL = "" then .error "client API URL was not defined"
    else if config.AuthKey = "" then .error "client auth key was not defined"
    else .ok { ApiURL := config.ApiURL, AuthKey := config.AuthKey }

/-- The method `reset`. -/
def alertaBackend.reset (b : alertaBackend) : alertaBackend := { b with client := none }

/-- The method `invalidate`. -/
def alertaBackend.invalidate (b : alertaBackend) (key : String) : alertaBackend :=
  if key = "config" then b.reset else b

/-- The part of `getClient` that runs under the exclusive lock (from
`getConfig` on).  It reads `b.client` again, and it assigns the result of
`newClient` to `b.client` also when that result is `nil`. -/
def getClientLocked (b : alertaBackend) (s : Storage) :
    alertaBackend × Except String alertaClient :=
  match getConfig s with
  | .error err => (b, .error err)
  | .ok config =>
    let config :=
      if b.client = none then
        match config with
        | none => some {}
        | some c => some c
      else config
    match newClient config with
    | .error err => ({ b with client := none }, .error err)
    | .ok c => ({ b with client := some c }, .ok c)

/-- The method `getClient` run without interference: the check under the
shared lock, then the part under the exclusive lock. -/
def getClient (b : alertaBackend) (s : Storage) :
    alertaBackend × Except String alertaClient :=
  match b.client with
  | some c => (b, .ok c)
  | none => getClientLocked b s

/-! ## Remote client (`client.go`) -/

/-- The method `makeRequest`: the request is logged and the remote answers. -/
def alertaClient.makeRequest (c : alertaClient) (w : Remote) (method endpoint : String)
    (body : Option (List (String × Value))) : Remote × HttpResult :=
  let req : HttpRequest :=
    { method := method, url := c.ApiURL ++ endpoint,
      authorization := "Key " ++ c.AuthKey, contentType := "application/json", body := body }
  ({ w with log := w.log ++ [req] }, w.respond w.log req)

/-- The request body built by `createKey`: `expireTime` is a member only
when the argument is not the empty string. -/
def createKeyRequestBody (user : String) (scopes : List String) (text expireTime : String) :
    List (String × Value) :=
  let requestBody := [("user", Value.str user), ("scopes", Value.strs scopes),
    ("text", Value.str text)]
  if expireTime ≠ "" then requestBody ++ [("expireTime", Value.str expireTime)]
  else requestBody

/-- The method `alertaClient.createKey`. -/
def alertaClient.createKey (c : alertaClient) (w : Remote) (user : String)
    (scopes : List String) (text expireTime : String) :
    Remote × Except String CreateKeyResponse :=
  match c.makeRequest w "POST" "/key" (some (createKeyRequestBody user scopes text expireTime)) with
  | (w', .transportError err) => (w', .error err)
  | (w', .response statusCode body) =>
    if statusCode ≠ 201 then
      (w', .error ("unexpected status code: " ++ toString statusCode ++ ", %!s(MISSING)"))
    else
      match body with
      | .unreadable err => (w', .error err)
      | .invalid err => (w', .error err)
      | .envelope status data =>
        if status ≠ "ok" then (w', .error ("unexpected status: " ++ status))
        else (w', .ok { ID := data.ID, Key := data.Key, ExpireTime := data.ExpireTime })

/-- The method `alertaClient.deleteKey`. -/
def alertaClient.deleteKey (c : alertaClient) (w : Remote) (id : String) :
    Remote × Except String DeleteKeyResponse :=
  match c.makeRequest w "DELETE" ("/key/" ++ id) none with
  | (w', .transportError err) => (w', .error err)
  | (w', .response statusCode body) =>
    if statusCode ≠ 200 then
      (w', .error ("unexpected status code: " ++ toString statusCode))
    else
      match body with
      | .unreadable err => (w', .error err)
      | .invalid err => (w', .error err)
      | .envelope status _ =>
        if status ≠ "ok" then (w', .error ("unexpected status: " ++ status))
        else (w', .ok { Status := status })

/-! ## Lease callbacks and issuance (`alerta_token.go`) -/

/-- The struct `alertaToken`. -/
structure alertaToken where
  ID : String
  Key : String
  ExpireTime : Time
  RoleName : String
  deriving DecidableEq, Repr

/-- The method `deleteToken`. -/
def deleteToken (w : Remote) (c : alertaClient) (id : String) : Remote × Except String Unit :=
  match c.deleteKey w id with
  | (w', .error err) => (w', .error ("error deleting Alerta API key: " ++ err))
  | (w', .ok _) => (w', .ok ())

/-- The credential ID `tokenRevoke` reads from the lease's internal data: the
empty string when the key is absent, an error when the value is not a string. -/
def revokeKeyId (internalData : List (String × Value)) : Except String String :=
  match mapGet "alerta_api_key_id" internalData with
  | none => .ok ""
  | some (.str apiKeyId) => .ok apiKeyId
  | some _ => .error "invalid value for Alerta API key ID in secret internal data"

/-- The callback `tokenRevoke`; `secret` is `req.Secret`.  It returns the
backend and the remote after the call together with the handler's result. -/
def tokenRevoke (b : alertaBackend) (s : Storage) (w : Remote) (secret : Secret) :
    alertaBackend × Remote × Except String (Option Response) :=
  match getClient b s with
  | (b', .error err) => (b', w, .error ("error getting client: " ++ err))
  | (b', .ok client) =>
    match revokeKeyId secret.InternalData with
    | .error err => (b', w, .error err)
    | .ok apiKeyId =>
      match deleteToken w client apiKeyId with
      | (w', .error err) => (b', w', .error ("error revoking Alerta API Key: " ++ err))
      | (w', .ok _) => (b', w', .ok none)

/-- The callback `tokenRenew`; `secret` is `req.Secret`.  The unchecked type
assertion `roleRaw.(string)` panics on a value that is not a string. -/
def tokenRenew (s : Storage) (secret : Secret) : Outcome (Except String (Option Response)) :=
  match mapGet "role_name" secret.InternalData with
  | none => .done (.error "secret is missing role_name internal data")
  | some (.str role) =>
    match getRole s role with
    | .error err => .done (.error ("error retrieving role: " ++ err))
    | .ok none => .done (.error "error retrieving role: role is nil")
    | .ok (some roleEntry) =>
      let secret1 := if roleEntry.TTL > 0 then { secret with TTL := roleEntry.TTL } else secret
      let secret2 :=
        if roleEntry.MaxTTL > 0 then { secret1 with MaxTTL := roleEntry.MaxTTL } else secret1
      .done (.ok (some { Secret := some secret2 }))
  | some _ => .panic "interface conversion: interface {} is not string"

/-- The method `createToken`.  `nowText` and `nowExpiry` are the two readings
of `time.Now()` on line 111, in the order in which they are taken, and
`parseRFC3339` is `time.Parse(time.RFC3339, ·)`. -/
def createToken (w : Remote) (c : alertaClient) (r : alertaRoleEntry)
    (nowText nowExpiry : Time) (parseRFC3339 : String → Except String Time) :
    Remote × Except String alertaToken :=
  match c.createKey w r.User r.Scopes (r.Description ++ " at " ++ nowText.FormatRFC3339)
      ((nowExpiry.Add r.MaxTTL).UTC.FormatRFC3339Nano) with
  | (w', .error err) => (w', .error ("error creating Alerta token: " ++ err))
  | (w', .ok response) =>
    match parseRFC3339 response.ExpireTime with
    | .error err => (w', .error ("***REMOVED***error parsing expire time: " ++ err))
    | .ok expireTime =>
      (w', .ok { ID := response.ID, Key := response.Key, ExpireTime := expireTime,
                 RoleName := r.Name })

/-- The request `deleteKey` hands to the HTTP library for the credential `id`:
`DELETE <ApiURL>/key/<id>` with the authorization header and no body. -/
def deleteKeyRequest (c : alertaClient) (id : String) : HttpRequest :=
  { method := "DELETE", url := c.ApiURL ++ ("/key/" ++ id),
    authorization := "Key " ++ c.AuthKey, contentType := "application/json", body := none }

/-- The request `createKey` hands to the HTTP library: `POST <ApiURL>/key`
with the JSON body built from its arguments. -/
def createKeyRequest (c : alertaClient) (user : String) (scopes : List String)
    (text expireTime : String) : HttpRequest :=
  { method := "POST", url := c.ApiURL ++ "/key",
    authorization := "Key " ++ c.AuthKey, contentType := "application/json",
    body := some (createKeyRequestBody user scopes text expireTime) }

/-- The parts of the `logical.Request` a lease callback is handed: the
storage (`req.Storage`), the lease (`req.Secret`) and the request data
(`req.Data`), in which the host passes the lease's public data. -/
structure LeaseRequest where
  Storage : Storage
  Secret : Secret
  Data : List (String × Value) := []

/-- The callback `tokenRevoke` on a whole request: of the request it reads
`req.Storage` and `req.Secret.InternalData`. -/
def tokenRevokeRequest (b : alertaBackend) (w : Remote) (req : LeaseRequest) :
    alertaBackend × Remote × Except String (Option Response) :=
  tokenRevoke b req.Storage w req.Secret

/-! ## Listing and deleting roles (`path_roles.go`) -/

/-- The remainder of `key` after the leading characters `pfx`, or `none` when
`key` does not start with them (`strings.HasPrefix` and `strings.TrimPrefix`). -/
def trimKey : List Char → List Char → Option (List Char)
  | [], key => some key
  | _ :: _, [] => none
  | p :: ps, k :: ks => if p = k then trimKey ps ks else none

/-- The folder a trimmed key lies in: its characters up to and including the
first `/`, or `none` when it has no `/`. -/
def firstSegment : List Char → Option (List Char)
  | [] => none
  | c :: cs => if c = '/' then some ['/'] else (firstSegment cs).map (fun seg => c :: seg)

/-- The walk of `Storage.List` over the keys in order: a key below `pfx` is
reported without the leading `pfx`; a key in a folder below `pfx` is reported
as that folder, once. -/
def listKeys (pfx : String) : List String → List String → List String
  | [], out => out
  | key :: rest, out =>
    match trimKey pfx.data key.data with
    | none => listKeys pfx rest out
    | some trimmed =>
      match firstSegment trimmed with
      | none => listKeys pfx rest (out ++ [String.mk trimmed])
      | some folder =>
        if String.mk folder ∈ out then listKeys pfx rest out
        else listKeys pfx rest (out ++ [String.mk folder])

/-- The method `Storage.List`. -/
def Storage.List (s : Storage) (pfx : String) : Except String (List String) :=
  .ok (listKeys pfx (s.entries.map (fun e => e.1)) [])

/-- The function `logical.ListResponse`: the keys are stored under `keys`
unless there are none. -/
def ListResponse (keys : List String) : Response :=
  { Secret := none, Data := if keys = [] then [] else [("keys", .strs keys)] }

/-- The handler `pathRolesList`. -/
def pathRolesList (s : Storage) : Except String (Option Response) :=
  match s.List "role/" with
  | .error err => .error err
  | .ok entries => .ok (some (ListResponse entries))

/-- The handler `pathRolesDelete`; `name` is `d.Get("name")`. -/
def pathRolesDelete (s : Storage) (name : String) :
    Storage × Except String (Option Response) :=
  match s.Delete ("role/" ++ name) with
  | .error err => (s, .error ("error deleting alerta role: " ++ err))
  | .ok s' => (s', .ok none)

/-! ## Configuration handlers (`path_config.go`) -/

/-- The parsed request fields of the `config` path: `some v` when the request
supplied the field, `none` when it did not. -/
structure ConfigFieldData where
  api_url : Option String := none
  auth_key : Option String := none
  deriving DecidableEq, Repr

/-- The handler `pathConfigRead`.  It reads `config.ApiURL` without checking
`config` for `nil`; on a `nil` configuration that is a run-time panic. -/
def pathConfigRead (s : Storage) : Outcome (Except String (Option Response)) :=
  match getConfig s with
  | .error err => .done (.error err)
  | .ok none => .panic "runtime error: invalid memory address or nil pointer dereference"
  | .ok (some config) => .done (.ok (some { Data := [("api_url", .str config.ApiURL)] }))

/-- Lines 131–141 of `pathConfigWrite`: the supplied fields are written over
`config`; on a create a missing `api_url` or `auth_key` is an error. -/
def mergeConfigFields (createOperation : Bool) (data : ConfigFieldData)
    (config : alertaConfig) : Except String alertaConfig := do
  let c1 ← match data.api_url with
    | some api_url => pure { config with ApiURL := api_url }
    | none => if createOperation then throw "api_url is required" else pure config
  let c2 ← match data.auth_key with
    | some auth_key => pure { c1 with AuthKey := auth_key }
    | none => if createOperation then throw "auth_key is required" else pure c1
  pure c2

/-- The handler `pathConfigWrite`, registered for create and update.  It
returns the backend and the storage after the call together with the
handler's result.  `logical.StorageEntryJSON` cannot fail on an
`alertaConfig`, so that error exit is never taken. -/
def pathConfigWrite (b : alertaBackend) (s : Storage) (op : Operation) (data : ConfigFieldData) :
    alertaBackend × Storage × Except String (Option Response) :=
  match getConfig s with
  | .error err => (b, s, .error err)
  | .ok stored =>
    let createOperation := decide (op = Operation.CreateOperation)
    if stored = none ∧ op = Operation.UpdateOperation then
      (b, s, .error "config not found during update operation")
    else
      match mergeConfigFields createOperation data (stored.getD {}) with
      | .error err => (b, s, .error err)
      | .ok config =>
        match s.Put configStoragePath (.configJSON config) with
        | .error err => (b, s, .error err)
        | .ok s' => (b.reset, s', .ok none)

/-- The handler `pathConfigDelete`: the cache is reset only when the delete
succeeded. -/
def pathConfigDelete (b : alertaBackend) (s : Storage) :
    alertaBackend × Storage × Except String (Option Response) :=
  match s.Delete configStoragePath with
  | .error err => (b, s, .error err)
  | .ok s' => (b.reset, s', .ok none)

/-! ## Issuance (`path_keys.go`) -/

/-- Assignment `m[k] = v` in a map represented as an association list. -/
def mapSet {α : Type} (k : String) (v : α) : List (String × α) → List (String × α)
  | [] => [(k, v)]
  | (k', v') :: rest => if k = k' then (k, v) :: rest else (k', v') :: mapSet k v rest

/-- The constant `alertaTokenType`. -/
def alertaTokenType : String := "alerta_token"

/-- A secret definition (`framework.Secret`): its type name and the default
lease duration; the `Fields`, `Renew` and `Revoke` members carry no data the
handlers read. -/
structure FrameworkSecret where
  TypeName : String
  DefaultDuration : Int := 0
  deriving DecidableEq, Repr

/-- The method `alertaBackend.alertaToken`, which is also what
`b.Secret(alertaTokenType)` finds among the registered secrets: the type is
`alertaTokenType` and no `DefaultDuration` is set. -/
def alertaTokenSecret : FrameworkSecret :=
  { TypeName := alertaTokenType, DefaultDuration := 0 }

/-- The method `framework.Secret.Response`: the response data is `data`; the
lease gets the secret's default duration as TTL, no MaxTTL, and a copy of
`internal` in which the framework records the secret's type name under
`secret_type` (it dispatches renew and revoke on that entry). -/
def FrameworkSecret.Response (fs : FrameworkSecret) (data internal : List (String × Value)) :
    Response :=
  { Secret := some { TTL := fs.DefaultDuration, MaxTTL := 0,
                     InternalData := mapSet "secret_type" (.str fs.TypeName) internal },
    Data := data }

/-- The assignment `resp.Secret.TTL = ttl`. -/
def Response.setTTL (resp : Response) (ttl : Int) : Response :=
  { resp with Secret := resp.Secret.map (fun sec => { sec with TTL := ttl }) }

/-- The assignment `resp.Secret.MaxTTL = maxTTL`. -/
def Response.setMaxTTL (resp : Response) (maxTTL : Int) : Response :=
  { resp with Secret := resp.Secret.map (fun sec => { sec with MaxTTL := maxTTL }) }

/-- The method `createUserCreds`.  It returns the backend and the remote after
the call together with the handler's result. -/
def createUserCreds (b : alertaBackend) (s : Storage) (w : Remote) (role : alertaRoleEntry)
    (nowText nowExpiry : Time) (parseRFC3339 : String → Except String Time) :
    alertaBackend × Remote × Except String (Option Response) :=
  match getClient b s with
  | (b', .error err) => (b', w, .error err)
  | (b', .ok client) =>
    match createToken w client role nowText nowExpiry parseRFC3339 with
    | (w', .error err) => (b', w', .error err)
    | (w', .ok token) =>
      let resp := alertaTokenSecret.Response
        [("alerta_api_key", .str token.Key), ("alerta_api_key_id", .str token.ID),
         ("expire_time", .time token.ExpireTime), ("role_name", .str role.Name)]
        [("alerta_api_key", .str token.Key), ("alerta_api_key_id", .str token.ID),
         ("role_name", .str role.Name)]
      let resp := if role.TTL > 0 then resp.setTTL role.TTL else resp
      let resp := if role.MaxTTL > 0 then resp.setMaxTTL role.MaxTTL else resp
      (b', w', .ok (some resp))

/-- The handler `pathKeysRead`; `roleName` is `d.Get("name")`. -/
def pathKeysRead (b : alertaBackend) (s : Storage) (w : Remote) (roleName : String)
    (nowText nowExpiry : Time) (parseRFC3339 : String → Except String Time) :
    alertaBackend × Remote × Except String (Option Response) :=
  match getRole s roleName with
  | .error err => (b, w, .error ("error retrieving role: " ++ err))
  | .ok none => (b, w, .error "error retrieving role: role is nil")
  | .ok (some roleEntry) =>
    createUserCreds b s w { roleEntry with Name := roleName } nowText nowExpiry parseRFC3339

/-! ## Concurrent callers of `getClient` -/

/-- The part of `getClient` under the exclusive lock, as `getClientLocked`,
together with the number of clients it constructs (the `&alertaClient{...}`
of a successful `newClient`). -/
def getClientLockedCounted (b : alertaBackend) (s : Storage) :
    (alertaBackend × Except String alertaClient) × Nat :=
  match getConfig s with
  | .error err => ((b, .error err), 0)
  | .ok config =>
    let config :=
      if b.client = none then
        match config with
        | none => some {}
        | some c => some c
      else config
    match newClient config with
    | .error err => (({ b with client := none }, .error err), 0)
    | .ok c => (({ b with client := some c }, .ok c), 1)

/-- Where a caller of `getClient` stands: before taking the shared lock;
after it saw `b.client == nil` under the shared lock and released it, on its
way to the exclusive lock; or returned. -/
inductive Caller where
  | start
  | upgrading
  | returned (r : Except String alertaClient)
  deriving DecidableEq, Repr

/-- The backend shared by the callers and the number of clients constructed
so far. -/
structure SharedBackend where
  backend : alertaBackend := {}
  constructed : Nat := 0
  deriving DecidableEq, Repr

/-- One atomic step of a caller: the check under the shared lock, or the
whole section under the exclusive lock. -/
def Caller.step (s : Storage) (sh : SharedBackend) : Caller → SharedBackend × Caller
  | .start =>
    match sh.backend.client with
    | some c => (sh, .returned (.ok c))
    | none => (sh, .upgrading)
  | .upgrading =>
    let r := getClientLockedCounted sh.backend s
    ({ backend := r.1.1, constructed := sh.constructed + r.2 }, .returned r.1.2)
  | .returned r => (sh, .returned r)

/-- Two callers run under a schedule: `false` lets the first caller take its
next step, `true` the second. -/
def runCallers (s : Storage) :
    List Bool → SharedBackend × Caller × Caller → SharedBackend × Caller × Caller
  | [], st => st
  | false :: rest, (sh, a, c) =>
    let r := Caller.step s sh a
    runCallers s rest (r.1, r.2, c)
  | true :: rest, (sh, a, c) =>
    let r := Caller.step s sh c
    runCallers s rest (r.1, a, r.2)

/-! ## Sequences of operations -/

/-- The operations on the configuration and the client cache. -/
inductive ConfigAction where
  | write (op : Operation) (data : ConfigFieldData)
  | delete
  | invalidate (key : String)
  | getClient
  deriving DecidableEq, Repr

/-- The backend and storage after one configuration operation. -/
def ConfigAction.apply (st : alertaBackend × Storage) : ConfigAction → alertaBackend × Storage
  | .write op data => ((pathConfigWrite st.1 st.2 op data).1, (pathConfigWrite st.1 st.2 op data).2.1)
  | .delete => ((pathConfigDelete st.1 st.2).1, (pathConfigDelete st.1 st.2).2.1)
  | .invalidate key => (st.1.invalidate key, st.2)
  | .getClient => ((Alerta.getClient st.1 st.2).1, st.2)

/-- The backend and storage after a sequence of configuration operations. -/
def runConfigActions (st : alertaBackend × Storage) (actions : List ConfigAction) :
    alertaBackend × Storage :=
  actions.foldl ConfigAction.apply st

/-- The cached client, if there is one, was built from the stored
configuration. -/
def cacheConsistent (b : alertaBackend) (s : Storage) : Prop :=
  b.client = none ∨
    ∃ c, getConfig s = .ok (some c) ∧ b.client = some { ApiURL := c.ApiURL, AuthKey := c.AuthKey }

/-- The write and delete operations on roles. -/
inductive RoleAction where
  | write (op : Operation) (d : FieldData)
  | delete (name : String)
  deriving DecidableEq, Repr

/-- The storage after one role operation, together with the names of the
roles whose write succeeded and that were not deleted since: a write that
returns `(nil, nil)` adds its name, a delete removes its name, and a failed
write changes nothing. -/
def RoleAction.apply (st : Storage × List String) : RoleAction → Storage × List String
  | .write op d =>
    match d.name, (pathRolesWrite st.1 op d).2 with
    | some name, .ok none =>
      ((pathRolesWrite st.1 op d).1, if name ∈ st.2 then st.2 else st.2 ++ [name])
    | _, _ => ((pathRolesWrite st.1 op d).1, st.2)
  | .delete name => ((pathRolesDelete st.1 name).1, st.2.filter (fun n => n ≠ name))

/-- The storage and the live role names after a sequence of role operations. -/
def runRoleActions (st : Storage × List String) (actions : List RoleAction) :
    Storage × List String :=
  actions.foldl RoleAction.apply st

/-- The name of the role a write operation addresses. -/
def RoleAction.writeName : RoleAction → Option String
  | .write _ d => d.name
  | .delete _ => none

/-- Every operation of the sequence is a write, and each returns `(nil, nil)`
when its turn comes. -/
def allWritesSucceed : Storage × List String → List RoleAction → Prop
  | _, [] => True
  | st, .write op d :: rest =>
    (pathRolesWrite st.1 op d).2 = .ok none ∧
      allWritesSucceed (RoleAction.apply st (.write op d)) rest
  | _, .delete _ :: _ => False

/-- Well-formedness of a role store with respect to a list of live names: the
keys are in strictly increasing order, the names are distinct and free of
`/`, and the keys are exactly the paths `role/<name>` of the names. -/
def roleStoreInv (st : Storage × List String) : Prop :=
  (st.1.entries.map (fun e => e.1)).Pairwise (fun a b => a < b) ∧
  st.2.Nodup ∧
  (∀ n ∈ st.2, '/' ∉ n.data) ∧
  (∀ key, key ∈ st.1.entries.map (fun e => e.1) ↔ ∃ n ∈ st.2, key = "role/" ++ n)

/-- A sequence of role operations: a create that succeeds, the rejected
create of the scenario (ttl two hours, max_ttl one hour), a delete and another
create that succeeds. -/
def exampleRoleActions : List RoleAction :=
  [ .write .CreateOperation { name := some "svc", user := some "svc@x",
                              scopes := some ["write:alerts"] },
    .write .CreateOperation { name := some "bad", user := some "svc@x",
                              scopes := some ["write:alerts"], ttl := some 7200,
                              max_ttl := some 3600 },
    .delete "svc",
    .write .CreateOperation { name := some "ops", user := some "ops@x",
                              scopes := some ["read:alerts"] } ]

/-- Two creates under distinct names that both succeed. -/
def exampleCreates : List RoleAction :=
  [ .write .CreateOperation { name := some "svc", user := some "svc@x",
                              scopes := some ["write:alerts"] },
    .write .CreateOperation { name := some "ops", user := some "ops@x",
                              scopes := some ["read:alerts"] } ]

/-! ## Example data (from `path_roles_test.go`) -/

/-- The role the tests create: user, scopes and description of the test
constants, ttl and max_ttl of one hour. -/
def testRoleEntry : alertaRoleEntry :=
  { User := "test@example.com", Scopes := ["write:alerts"], Description := "Test role",
    TTL := 3600000000000, MaxTTL := 3600000000000, Name := "" }

/-- A storage holding the test role under `role/testrole`. -/
def testRoleStorage : Storage :=
  { entries := [("role/testrole", .roleJSON testRoleEntry)] }

/-- The fields of the tests' update request: ttl one minute, max_ttl five hours. -/
def testUpdateFields : FieldData :=
  { name := some "testrole", ttl := some 60, max_ttl := some 18000 }

/-- A create request without user: only the name and the scopes. -/
def createWithoutUser : FieldData :=
  { name := some "svc", scopes := some ["write:alerts"] }

/-- A create request with user and scopes and neither ttl nor max_ttl. -/
def createWithoutTTLs : FieldData :=
  { name := some "svc", user := some "svc@x", scopes := some ["write:alerts"] }

/-! ## Example data (the scenario of the specification) -/

/-- The configuration of the scenario. -/
def exampleConfig : alertaConfig :=
  { ApiURL := "https://alerta.example/api", AuthKey := "K" }

/-- The client built from the configuration of the scenario. -/
def exampleClient : alertaClient :=
  { ApiURL := "https://alerta.example/api", AuthKey := "K" }

/-- A role `svc` whose ttl and max_ttl are both zero. -/
def zeroTTLRole : alertaRoleEntry :=
  { User := "svc@x", Scopes := ["write:alerts"], Description := "Created by Vault",
    TTL := 0, MaxTTL := 0, Name := "" }

/-- A storage holding the configuration of the scenario and the role `svc`
with zero ttl and max_ttl. -/
def exampleStorage : Storage :=
  { entries := [("config", .configJSON exampleConfig), ("role/svc", .roleJSON zeroTTLRole)] }

/-- A lease issued for role `svc` with a TTL and MaxTTL of one hour and the
credential ID `id-1` in its internal data. -/
def issuedSecret : Secret :=
  { TTL := 3600000000000, MaxTTL := 3600000000000,
    InternalData := [("alerta_api_key", .str "secret-1"), ("alerta_api_key_id", .str "id-1"),
      ("role_name", .str "svc")] }

/-- A lease whose internal data has no `role_name` entry. -/
def unboundSecret : Secret :=
  { TTL := 3600000000000, MaxTTL := 3600000000000,
    InternalData := [("alerta_api_key", .str "secret-1"), ("alerta_api_key_id", .str "id-1")] }

/-- A remote API that accepts every request: 201 for `POST`, 200 otherwise,
with the envelope status `ok`. -/
def okRemote : Remote :=
  { respond := fun _ req =>
      if req.method = "POST" then
        .response 201 (.envelope "ok"
          { ID := "id-1", Key := "secret-1", ExpireTime := "2023-11-14T22:13:20Z" })
      else .response 200 (.envelope "ok" {}),
    log := [] }

/-- A remote API that answers every request with status code 500 and a body
that is not JSON. -/
def failingRemote : Remote :=
  { respond := fun _ _ => .response 500 (.invalid "invalid character in response body"),
    log := [] }

/-- The instant 2023-11-14T22:13:20Z, read in UTC. -/
def exampleNow : Time := { unixNano := 1700000000000000000, offset := 0 }

/-- The role `svc` after an update to a ttl of one minute and a max_ttl of
five hours. -/
def testRenewRole : alertaRoleEntry :=
  { User := "svc@x", Scopes := ["write:alerts"], Description := "Created by Vault",
    TTL := 60000000000, MaxTTL := 18000000000000, Name := "" }

/-- A storage holding the configuration of the scenario and the updated
role `svc`. -/
def testRenewStorage : Storage :=
  { entries := [("config", .configJSON exampleConfig), ("role/svc", .roleJSON testRenewRole)] }

/-- The function `time.Parse(time.RFC3339, ·)` on the one timestamp the
remote of the scenario returns; every other string is refused. -/
def exampleParse (value : String) : Except String Time :=
  if value = "2023-11-14T22:13:20Z" then .ok { unixNano := 1700000000000000000, offset := 0 }
  else .error "cannot parse timestamp"

/-- The response of a successful issuance for the updated role `svc` against
the remote of the scenario. -/
def issuedResponse : Response :=
  { Secret := some
      { TTL := 60000000000, MaxTTL := 18000000000000,
        InternalData := [("alerta_api_key", .str "secret-1"),
          ("alerta_api_key_id", .str "id-1"), ("role_name", .str "svc"),
          ("secret_type", .str "alerta_token")] },
    Data := [("alerta_api_key", .str "secret-1"), ("alerta_api_key_id", .str "id-1"),
      ("expire_time", .time { unixNano := 1700000000000000000, offset := 0 }),
      ("role_name", .str "svc")] }

/-- The response of a successful issuance for the role `svc` with zero ttl
and max_ttl against the remote of the scenario. -/
def zeroTTLIssuedResponse : Response :=
  { Secret := some
      { TTL := 0, MaxTTL := 0,
        InternalData := [("alerta_api_key", .str "secret-1"),
          ("alerta_api_key_id", .str "id-1"), ("role_name", .str "svc"),
          ("secret_type", .str "alerta_token")] },
    Data := [("alerta_api_key", .str "secret-1"), ("alerta_api_key_id", .str "id-1"),
      ("expire_time", .time { unixNano := 1700000000000000000, offset := 0 }),
      ("role_name", .str "svc")] }

/-- A storage holding only a configuration whose auth key is empty. -/
def invalidConfigStorage : Storage :=
  { entries := [("config", .configJSON { ApiURL := "https://alerta.example/api", AuthKey := "" })] }

/-- A storage holding the configuration of the scenario with another auth key. -/
def otherKeyStorage : Storage :=
  { entries := [("config", .configJSON { ApiURL := "https://alerta.example/api", AuthKey := "K2" })] }

/-! ## Basic facts about the storage and durations -/

theorem mapGet_putEntries_self (k : String) (v : StorageEntry)
    (l : List (String × StorageEntry)) : mapGet k (putEntries k v l) = some v := by
  induction l with
  | nil => simp [putEntries, mapGet]
  | cons hd tl ih =>
    obtain ⟨k', v'⟩ := hd
    unfold putEntries
    by_cases h1 : k = k'
    · simp [h1, mapGet]
    · by_cases h2 : k < k'
      · simp [h1, h2, mapGet]
      · simp [h1, h2, mapGet, ih]

theorem mapGet_putEntries_other (k k2 : String) (v : StorageEntry)
    (l : List (String × StorageEntry)) (hne : k2 ≠ k) :
    mapGet k2 (putEntries k v l) = mapGet k2 l := by
  induction l with
  | nil => simp [putEntries, mapGet, hne]
  | cons hd tl ih =>
    obtain ⟨k', v'⟩ := hd
    unfold putEntries
    by_cases h1 : k = k'
    · subst h1
      simp [mapGet, hne]
    · by_cases h2 : k < k'
      · simp [h1, h2, mapGet, hne]
      · by_cases h3 : k2 = k'
        · simp [h1, h2, mapGet, h3]
        · simp [h1, h2, mapGet, h3, ih]

theorem secondsToDuration_of_range (n : Int) (h0 : 0 ≤ n) (h1 : n ≤ maxDurationSeconds) :
    secondsToDuration n = n * Second := by
  unfold secondsToDuration wrapInt64 Second
  unfold maxDurationSeconds at h1
  omega

theorem Duration_Seconds_whole (n : Int) : Duration.Seconds (n * Second) = .seconds n 0 := by
  unfold Duration.Seconds Second
  rw [Int.mul_tdiv_cancel _ (by decide), Int.mul_tmod_left]

theorem getRole_setRole_self (s s' : Storage) (name : String) (r : alertaRoleEntry)
    (hname : name ≠ "") (hset : setRole s name r = .ok s') :
    getRole s' name = .ok (some r) := by
  unfold setRole Storage.Put at hset
  cases hset
  simp [getRole, hname, Storage.Get, mapGet_putEntries_self, StorageEntry.decodeRole]

theorem getRole_ok_name_ne (s : Storage) (name : String) (old : Option alertaRoleEntry)
    (hget : getRole s name = .ok old) : name ≠ "" := by
  intro h
  subst h
  simp [getRole] at hget

/-! ## Role registry: writes -/

/-- C1: on a role write whose merged entry (the stored entry, or the zero
entry, overwritten with the supplied fields and the create-time defaults) has
ttl and max_ttl both nonzero and ttl above max_ttl, `pathRolesWrite` answers
the error response "ttl cannot be greater than max_ttl" and the storage it
returns is the storage it was given. -/
theorem pathRolesWrite_rejects_ttl_above_max_ttl
    (s : Storage) (op : Operation) (d : FieldData) (name : String)
    (stored : Option alertaRoleEntry) (merged : alertaRoleEntry)
    (hname : d.name = some name)
    (hget : getRole s name = .ok stored)
    (hmerge : mergeFields (decide (op = Operation.CreateOperation)) d (stored.getD {})
      = .ok merged)
    (httl : merged.TTL ≠ 0) (hmax : merged.MaxTTL ≠ 0)
    (hgt : merged.TTL > merged.MaxTTL) :
    pathRolesWrite s op d
      = (s, .ok (some (ErrorResponse "ttl cannot be greater than max_ttl"))) := by
  have _ := httl
  simp only [pathRolesWrite, hname, hget, hmerge]
  rw [if_pos ⟨hmax, hgt⟩]

theorem pathRolesWrite_rejects_ttl_above_max_ttl_witness :
    getRole {} "bad" = .ok none ∧
    pathRolesWrite {} .CreateOperation
      { name := some "bad", user := some "svc@x", scopes := some ["write:alerts"],
        ttl := some 7200, max_ttl := some 3600 }
      = ({}, .ok (some (ErrorResponse "ttl cannot be greater than max_ttl"))) :=
  ⟨by decide,
   pathRolesWrite_rejects_ttl_above_max_ttl {} .CreateOperation
    { name := some "bad", user := some "svc@x", scopes := some ["write:alerts"],
      ttl := some 7200, max_ttl := some 3600 } "bad" none
    { User := "svc@x", Scopes := ["write:alerts"], Description := "Created by Vault",
      TTL := 7200000000000, MaxTTL := 3600000000000, Name := "" }
    rfl (by decide) (by decide) (by decide) (by decide) (by decide)⟩

/-- C2: a create that supplies user, scopes, description, ttl and max_ttl
(whole seconds in the range the framework delivers) with ttl ≤ max_ttl or
one of them zero succeeds with `(nil, nil)`, and reading the role back
returns exactly the written fields, the two durations in seconds. -/
theorem pathRolesWrite_create_then_read
    (s : Storage) (name user description : String) (scopes : List String)
    (ttl max_ttl : Int) (old : Option alertaRoleEntry)
    (hget : getRole s name = .ok old)
    (httl : 0 ≤ ttl ∧ ttl ≤ maxDurationSeconds)
    (hmax : 0 ≤ max_ttl ∧ max_ttl ≤ maxDurationSeconds)
    (hvalid : ttl ≤ max_ttl ∨ ttl = 0 ∨ max_ttl = 0) :
    ∃ s', pathRolesWrite s .CreateOperation
        { name := some name, user := some user, scopes := some scopes,
          description := some description, ttl := some ttl, max_ttl := some max_ttl }
        = (s', .ok none) ∧
      pathRolesRead s' name = .ok (some { Data :=
        [("ttl", .seconds ttl 0), ("max_ttl", .seconds max_ttl 0), ("user", .str user),
         ("scopes", .strs scopes), ("description", .str description)] }) := by
  have hne := getRole_ok_name_ne s name old hget
  have e1 := secondsToDuration_of_range ttl httl.1 httl.2
  have e2 := secondsToDuration_of_range max_ttl hmax.1 hmax.2
  have hcheck : ¬ (max_ttl * Second ≠ 0 ∧ ttl * Second > max_ttl * Second) := by
    unfold Second
    rintro ⟨h1, h2⟩
    rcases hvalid with h | h | h
    · omega
    · have := hmax.1
      omega
    · omega
  refine ⟨Storage.mk (putEntries ("role/" ++ name)
      (.roleJSON { User := user, Scopes := scopes, Description := description,
                   TTL := ttl * Second, MaxTTL := max_ttl * Second, Name := (old.getD {}).Name })
      s.entries), ?_, ?_⟩
  · simp only [pathRolesWrite, hget, mergeFields, bind, Except.bind, pure, Except.pure,
      decide_True, e1, e2]
    rw [if_neg hcheck]
    simp [setRole, Storage.Put]
  · simp [pathRolesRead, getRole, hne, Storage.Get, mapGet_putEntries_self,
      StorageEntry.decodeRole, alertaRoleEntry.toResponseData, Duration_Seconds_whole]

theorem pathRolesWrite_create_then_read_witness :
    getRole {} "testrole" = .ok none ∧
    (∃ s', pathRolesWrite {} .CreateOperation
        { name := some "testrole", user := some "test@example.com",
          scopes := some ["write:alerts"], description := some "Test role",
          ttl := some 3600, max_ttl := some 3600 }
        = (s', .ok none) ∧
      pathRolesRead s' "testrole" = .ok (some { Data :=
        [("ttl", .seconds 3600 0), ("max_ttl", .seconds 3600 0),
         ("user", .str "test@example.com"), ("scopes", .strs ["write:alerts"]),
         ("description", .str "Test role")] })) :=
  ⟨by decide,
   pathRolesWrite_create_then_read {} "testrole" "test@example.com" "Test role"
    ["write:alerts"] 3600 3600 none (by decide) (by decide) (by decide) (by decide)⟩

theorem mergeFields_update (d : FieldData) (old : alertaRoleEntry) :
    mergeFields false d old = .ok
      { User := d.user.getD old.User, Scopes := d.scopes.getD old.Scopes,
        Description := d.description.getD old.Description,
        TTL := (d.ttl.map secondsToDuration).getD old.TTL,
        MaxTTL := (d.max_ttl.map secondsToDuration).getD old.MaxTTL,
        Name := old.Name } := by
  obtain ⟨n, u, sc, de, t, m⟩ := d
  cases u <;> cases sc <;> cases de <;> cases t <;> cases m <;>
    simp [mergeFields, bind, Except.bind, pure, Except.pure]

theorem map_secondsToDuration_of_range (o : Option Int)
    (h : ∀ t, o = some t → 0 ≤ t ∧ t ≤ maxDurationSeconds) :
    o.map secondsToDuration = o.map (fun t => t * Second) := by
  cases o with
  | none => rfl
  | some t =>
    have := h t rfl
    simp [secondsToDuration_of_range t this.1 this.2]

/-- C3: an update of an existing role that supplies any subset of user,
scopes, description, ttl and max_ttl and passes the ttl/max_ttl check
succeeds, and the entry stored afterwards holds each supplied field at its
new value and each omitted field (description and user included) at the
value it had before. -/
theorem pathRolesWrite_update_keeps_omitted_fields
    (s : Storage) (d : FieldData) (name : String) (old : alertaRoleEntry)
    (hname : d.name = some name)
    (hget : getRole s name = .ok (some old))
    (httl : ∀ t, d.ttl = some t → 0 ≤ t ∧ t ≤ maxDurationSeconds)
    (hmax : ∀ t, d.max_ttl = some t → 0 ≤ t ∧ t ≤ maxDurationSeconds)
    (hcheck : ¬ ((d.max_ttl.map (fun t => t * Second)).getD old.MaxTTL ≠ 0 ∧
      (d.ttl.map (fun t => t * Second)).getD old.TTL
        > (d.max_ttl.map (fun t => t * Second)).getD old.MaxTTL)) :
    ∃ s', pathRolesWrite s .UpdateOperation d = (s', .ok none) ∧
      getRole s' name = .ok (some
        { User := d.user.getD old.User, Scopes := d.scopes.getD old.Scopes,
          Description := d.description.getD old.Description,
          TTL := (d.ttl.map (fun t => t * Second)).getD old.TTL,
          MaxTTL := (d.max_ttl.map (fun t => t * Second)).getD old.MaxTTL,
          Name := old.Name }) := by
  have hne := getRole_ok_name_ne s name (some old) hget
  have hm := mergeFields_update d old
  rw [map_secondsToDuration_of_range d.ttl httl,
    map_secondsToDuration_of_range d.max_ttl hmax] at hm
  refine ⟨Storage.mk (putEntries ("role/" ++ name) (.roleJSON
      { User := d.user.getD old.User, Scopes := d.scopes.getD old.Scopes,
        Description := d.description.getD old.Description,
        TTL := (d.ttl.map (fun t => t * Second)).getD old.TTL,
        MaxTTL := (d.max_ttl.map (fun t => t * Second)).getD old.MaxTTL,
        Name := old.Name }) s.entries), ?_, ?_⟩
  · have hop : decide (Operation.UpdateOperation = Operation.CreateOperation) = false := by
      decide
    simp only [pathRolesWrite, hname, hget, hop, Option.getD_some, hm]
    rw [if_neg hcheck]
    simp [setRole, Storage.Put]
  · simp [getRole, hne, Storage.Get, mapGet_putEntries_self, StorageEntry.decodeRole]

theorem pathRolesWrite_update_keeps_omitted_fields_witness :
    getRole testRoleStorage "testrole" = .ok (some testRoleEntry) ∧
    (∃ s', pathRolesWrite testRoleStorage .UpdateOperation testUpdateFields = (s', .ok none) ∧
      getRole s' "testrole" = .ok (some
        { User := "test@example.com", Scopes := ["write:alerts"], Description := "Test role",
          TTL := 60000000000, MaxTTL := 18000000000000, Name := "" })) :=
  ⟨by decide,
   pathRolesWrite_update_keeps_omitted_fields testRoleStorage testUpdateFields "testrole"
    testRoleEntry rfl (by decide)
    (by intro t h; cases h; decide) (by intro t h; cases h; decide) (by decide)⟩

/-- C4: a create that omits user or omits scopes fails and leaves the storage
as it was; when the role name is present and the stored entry (if any) is
readable, the error is "user is required" if user is omitted and "scopes is
required" otherwise. -/
theorem pathRolesWrite_create_requires_user_and_scopes
    (s : Storage) (d : FieldData) (hmiss : d.user = none ∨ d.scopes = none) :
    (pathRolesWrite s .CreateOperation d).1 = s ∧
    (pathRolesWrite s .CreateOperation d).2 ≠ .ok none ∧
    (∀ name stored, d.name = some name → getRole s name = .ok stored →
      (pathRolesWrite s .CreateOperation d).2
        = .error (if d.user = none then "user is required" else "scopes is required")) := by
  obtain ⟨n, u, sc, de, t, m⟩ := d
  have key : ∀ base : alertaRoleEntry, mergeFields true ⟨n, u, sc, de, t, m⟩ base
      = .error (if u = none then "user is required" else "scopes is required") := by
    intro base
    cases u with
    | none => simp [mergeFields, bind, Except.bind]
    | some user =>
      cases sc with
      | none => simp [mergeFields, bind, Except.bind, pure, Except.pure]
      | some scopes => simp at hmiss
  refine ⟨?_, ?_, ?_⟩
  · cases n with
    | none => simp [pathRolesWrite]
    | some name =>
      cases hg : getRole s name with
      | error e => simp [pathRolesWrite, hg]
      | ok stored => simp [pathRolesWrite, hg, key]
  · cases n with
    | none => simp [pathRolesWrite]
    | some name =>
      cases hg : getRole s name with
      | error e => simp [pathRolesWrite, hg]
      | ok stored => simp [pathRolesWrite, hg, key]
  · intro name stored hn hg
    simp only at hn
    subst hn
    simp [pathRolesWrite, hg, key]

theorem pathRolesWrite_create_requires_user_and_scopes_witness :
    (createWithoutUser.user = none ∨ createWithoutUser.scopes = none) ∧
    (pathRolesWrite {} .CreateOperation createWithoutUser).1 = {} ∧
    (pathRolesWrite {} .CreateOperation createWithoutUser).2 = .error "user is required" :=
  ⟨Or.inl rfl,
   (pathRolesWrite_create_requires_user_and_scopes {} createWithoutUser (Or.inl rfl)).1,
   (pathRolesWrite_create_requires_user_and_scopes {} createWithoutUser (Or.inl rfl)).2.2
      "svc" none rfl (by decide)⟩

/-- C5: evaluation of a create that supplies neither ttl nor max_ttl on an
empty storage: the stored role has ttl 0 but max_ttl ninety days (the schema
default of the field), and the role reads back with max_ttl 7776000 seconds. -/
theorem pathRolesWrite_create_without_ttls_stores_ninety_days :
    pathRolesWrite {} .CreateOperation createWithoutTTLs
      = (⟨[("role/svc", .roleJSON
            { User := "svc@x", Scopes := ["write:alerts"], Description := "Created by Vault",
              TTL := 0, MaxTTL := 7776000000000000, Name := "" })]⟩, .ok none) ∧
    pathRolesRead (pathRolesWrite {} .CreateOperation createWithoutTTLs).1 "svc"
      = .ok (some { Data := [("ttl", .seconds 0 0), ("max_ttl", .seconds 7776000 0),
          ("user", .str "svc@x"), ("scopes", .strs ["write:alerts"]),
          ("description", .str "Created by Vault")] }) := by
  constructor <;> decide

/-! ## Revocation -/

theorem makeRequest_delete (c : alertaClient) (w : Remote) (id : String) :
    c.makeRequest w "DELETE" ("/key/" ++ id) none
      = ({ w with log := w.log ++ [deleteKeyRequest c id] },
         w.respond w.log (deleteKeyRequest c id)) := rfl

theorem deleteToken_log (w : Remote) (c : alertaClient) (id : String) :
    (deleteToken w c id).1.log = w.log ++ [deleteKeyRequest c id] := by
  simp only [deleteToken, alertaClient.deleteKey, makeRequest_delete]
  cases w.respond w.log (deleteKeyRequest c id) with
  | transportError err => rfl
  | response code body =>
    by_cases hc : code = 200
    · subst hc
      cases body with
      | unreadable err => rfl
      | invalid err => rfl
      | envelope status data =>
        by_cases hs : status = "ok"
        · simp [hs]
        · simp [hs]
    · simp [hc]

theorem deleteToken_ok_iff (w : Remote) (c : alertaClient) (id : String) :
    (deleteToken w c id).2 = .ok () ↔
      ∃ data, w.respond w.log (deleteKeyRequest c id) = .response 200 (.envelope "ok" data) := by
  simp only [deleteToken, alertaClient.deleteKey, makeRequest_delete]
  cases w.respond w.log (deleteKeyRequest c id) with
  | transportError err => simp
  | response code body =>
    by_cases hc : code = 200
    · subst hc
      cases body with
      | unreadable err => simp
      | invalid err => simp
      | envelope status data =>
        by_cases hs : status = "ok"
        · simp [hs]
        · simp [hs]
    · simp [hc]

theorem tokenRevoke_of_client (b b' : alertaBackend) (s : Storage) (w : Remote)
    (secret : Secret) (client : alertaClient) (id : String)
    (hclient : getClient b s = (b', .ok client))
    (hid : revokeKeyId secret.InternalData = .ok id) :
    (tokenRevoke b s w secret).2.1 = (deleteToken w client id).1 ∧
    ((tokenRevoke b s w secret).2.2 = .ok none ↔ (deleteToken w client id).2 = .ok ()) := by
  simp only [tokenRevoke, hclient, hid]
  cases deleteToken w client id with
  | mk w' r => cases r <;> simp

theorem tokenRevoke_log_of_client (b b' : alertaBackend) (s : Storage) (w : Remote)
    (secret : Secret) (client : alertaClient)
    (hclient : getClient b s = (b', .ok client)) :
    (tokenRevoke b s w secret).2.1.log =
      match mapGet "alerta_api_key_id" secret.InternalData with
      | none => w.log ++ [deleteKeyRequest client ""]
      | some (.str id) => w.log ++ [deleteKeyRequest client id]
      | some _ => w.log := by
  cases hm : mapGet "alerta_api_key_id" secret.InternalData with
  | none =>
    have hk : revokeKeyId secret.InternalData = .ok "" := by simp [revokeKeyId, hm]
    rw [(tokenRevoke_of_client b b' s w secret client "" hclient hk).1]
    exact deleteToken_log w client ""
  | some v =>
    cases v with
    | str id =>
      have hk : revokeKeyId secret.InternalData = .ok id := by simp [revokeKeyId, hm]
      rw [(tokenRevoke_of_client b b' s w secret client id hclient hk).1]
      exact deleteToken_log w client id
    | null => simp [tokenRevoke, hclient, revokeKeyId, hm]
    | bool x => simp [tokenRevoke, hclient, revokeKeyId, hm]
    | int x => simp [tokenRevoke, hclient, revokeKeyId, hm]
    | strs x => simp [tokenRevoke, hclient, revokeKeyId, hm]
    | seconds x y => simp [tokenRevoke, hclient, revokeKeyId, hm]
    | time x => simp [tokenRevoke, hclient, revokeKeyId, hm]

/-- C6 (as stated, refuted): on a storage without configuration the lease
records the credential ID `id-1`, yet `tokenRevoke` returns the error of
`getClient` and makes no remote call; the same happens once a stored
configuration has been deleted. -/
theorem tokenRevoke_without_config_sends_nothing :
    mapGet "alerta_api_key_id" issuedSecret.InternalData = some (.str "id-1") ∧
    (tokenRevoke {} {} okRemote issuedSecret).2.1.log = [] ∧
    (tokenRevoke {} {} okRemote issuedSecret).2.2
      = .error "error getting client: client API URL was not defined" ∧
    (tokenRevoke (pathConfigDelete { client := some exampleClient } exampleStorage).1
        (pathConfigDelete { client := some exampleClient } exampleStorage).2.1
        okRemote issuedSecret).2.1.log = [] := by
  decide

/-- C6 (amended): when the client can be obtained, `tokenRevoke` makes
exactly one remote call, the delete for the string stored under
`alerta_api_key_id` in the lease's internal data, and for the empty string
when that key is absent; in the latter case the call still succeeds if the
remote accepts it.  The ID comes from the internal data only: any request
with the same client and the same `alerta_api_key_id` entry, whatever its
public data, the rest of its lease and the roles in its storage, makes the
same remote call. -/
theorem tokenRevoke_deletes_recorded_key_id
    (b b' : alertaBackend) (s : Storage) (w : Remote) (secret : Secret)
    (client : alertaClient)
    (hclient : getClient b s = (b', .ok client)) :
    (∀ id, mapGet "alerta_api_key_id" secret.InternalData = some (.str id) →
      (tokenRevoke b s w secret).2.1.log = w.log ++ [deleteKeyRequest client id]) ∧
    (mapGet "alerta_api_key_id" secret.InternalData = none →
      (tokenRevoke b s w secret).2.1.log = w.log ++ [deleteKeyRequest client ""] ∧
      (∀ data, w.respond w.log (deleteKeyRequest client "")
          = .response 200 (.envelope "ok" data) →
        (tokenRevoke b s w secret).2.2 = .ok none)) ∧
    (∀ (req : LeaseRequest) (b2 : alertaBackend),
      getClient b req.Storage = (b2, .ok client) →
      mapGet "alerta_api_key_id" req.Secret.InternalData
        = mapGet "alerta_api_key_id" secret.InternalData →
      (tokenRevokeRequest b w req).2.1.log = (tokenRevoke b s w secret).2.1.log) := by
  refine ⟨?_, ?_, ?_⟩
  · intro id hid
    have hk : revokeKeyId secret.InternalData = .ok id := by simp [revokeKeyId, hid]
    rw [(tokenRevoke_of_client b b' s w secret client id hclient hk).1]
    exact deleteToken_log w client id
  · intro hnone
    have hk : revokeKeyId secret.InternalData = .ok "" := by simp [revokeKeyId, hnone]
    have h := tokenRevoke_of_client b b' s w secret client "" hclient hk
    refine ⟨?_, ?_⟩
    · rw [h.1]
      exact deleteToken_log w client ""
    · intro data hresp
      exact h.2.mpr ((deleteToken_ok_iff w client "").mpr ⟨data, hresp⟩)
  · intro req b2 hclient2 hsame
    rw [tokenRevokeRequest, tokenRevoke_log_of_client b b2 req.Storage w req.Secret client
      hclient2, tokenRevoke_log_of_client b b' s w secret client hclient, hsame]

theorem tokenRevoke_deletes_recorded_key_id_witness :
    getClient {} exampleStorage = ({ client := some exampleClient }, .ok exampleClient) ∧
    (tokenRevoke {} exampleStorage okRemote issuedSecret).2.1.log
      = [deleteKeyRequest exampleClient "id-1"] ∧
    (tokenRevoke {} exampleStorage okRemote issuedSecret).2.1.log
      = okRemote.log ++ [deleteKeyRequest exampleClient "id-1"] ∧
    (tokenRevokeRequest {} okRemote
        { Storage := testRenewStorage, Secret := issuedSecret,
          Data := [("alerta_api_key_id", .str "id-2")] }).2.1.log
      = (tokenRevoke {} exampleStorage okRemote issuedSecret).2.1.log :=
  ⟨by decide, by decide,
   (tokenRevoke_deletes_recorded_key_id {} { client := some exampleClient } exampleStorage
      okRemote issuedSecret exampleClient (by decide)).1 "id-1" (by decide),
   (tokenRevoke_deletes_recorded_key_id {} { client := some exampleClient } exampleStorage
      okRemote issuedSecret exampleClient (by decide)).2.2
      { Storage := testRenewStorage, Secret := issuedSecret,
        Data := [("alerta_api_key_id", .str "id-2")] }
      { client := some exampleClient } (by decide) rfl⟩

/-- C7: `tokenRevoke` returns `(nil, nil)` exactly when the client was
obtained, the recorded ID was usable and the remote answered the delete
request with status code 200 and an envelope of status "ok"; in every other
case, every failure of the remote call included, it returns an error. -/
theorem tokenRevoke_success_iff_remote_ok
    (b : alertaBackend) (s : Storage) (w : Remote) (secret : Secret) :
    ((tokenRevoke b s w secret).2.2 = .ok none ↔
      ∃ client id data, (getClient b s).2 = .ok client ∧
        revokeKeyId secret.InternalData = .ok id ∧
        w.respond w.log (deleteKeyRequest client id)
          = .response 200 (.envelope "ok" data)) ∧
    ((tokenRevoke b s w secret).2.2 ≠ .ok none →
      ∃ msg, (tokenRevoke b s w secret).2.2 = .error msg) := by
  cases hc : getClient b s with
  | mk b' rc =>
    cases rc with
    | error e => simp [tokenRevoke, hc]
    | ok client =>
      cases hk : revokeKeyId secret.InternalData with
      | error e => simp [tokenRevoke, hc, hk]
      | ok id =>
        have h := (tokenRevoke_of_client b b' s w secret client id hc hk).2
        have h2 := deleteToken_ok_iff w client id
        refine ⟨?_, ?_⟩
        · rw [h, h2]
          constructor
          · rintro ⟨data, hd⟩
            exact ⟨client, id, data, rfl, rfl, hd⟩
          · rintro ⟨client', id', data, h1, h3, hd⟩
            cases h1
            cases h3
            exact ⟨data, hd⟩
        · simp only [tokenRevoke, hc, hk]
          cases deleteToken w client id with
          | mk w' r => cases r <;> simp

theorem tokenRevoke_success_iff_remote_ok_witness :
    (tokenRevoke {} exampleStorage okRemote issuedSecret).2.2 = .ok none ∧
    (∃ msg, (tokenRevoke {} exampleStorage failingRemote issuedSecret).2.2 = .error msg) :=
  ⟨(tokenRevoke_success_iff_remote_ok {} exampleStorage okRemote issuedSecret).1.mpr
      ⟨exampleClient, "id-1", {}, by decide, by decide, by decide⟩,
   (tokenRevoke_success_iff_remote_ok {} exampleStorage failingRemote issuedSecret).2
      (by decide)⟩

/-! ## Renewal -/

/-- C8 (as stated, refuted): the role `svc` exists with ttl 0 and max_ttl 0,
the lease carries a TTL and MaxTTL of one hour, and `tokenRenew` returns the
lease unchanged, so its TTL and MaxTTL are not the role's current values. -/
theorem tokenRenew_zero_role_ttl_keeps_lease_values :
    mapGet "role_name" issuedSecret.InternalData = some (.str "svc") ∧
    getRole exampleStorage "svc" = .ok (some zeroTTLRole) ∧
    tokenRenew exampleStorage issuedSecret
      = .done (.ok (some { Secret := some issuedSecret })) ∧
    issuedSecret.TTL ≠ zeroTTLRole.TTL ∧ issuedSecret.MaxTTL ≠ zeroTTLRole.MaxTTL := by
  decide

/-- C8 (amended): for a lease whose internal data names a role that exists,
`tokenRenew` returns the lease with TTL set to the role's current ttl when
that is positive and MaxTTL set to the role's current max_ttl when that is
positive; a lease field whose role value is not positive keeps the value the
lease carried.  The internal data is returned as it was. -/
theorem tokenRenew_applies_positive_role_values
    (s : Storage) (secret : Secret) (name : String) (role : alertaRoleEntry)
    (hname : mapGet "role_name" secret.InternalData = some (.str name))
    (hrole : getRole s name = .ok (some role)) :
    ∃ lease, tokenRenew s secret = .done (.ok (some { Secret := some lease })) ∧
      lease.TTL = (if role.TTL > 0 then role.TTL else secret.TTL) ∧
      lease.MaxTTL = (if role.MaxTTL > 0 then role.MaxTTL else secret.MaxTTL) ∧
      lease.InternalData = secret.InternalData := by
  simp only [tokenRenew, hname, hrole]
  by_cases h1 : role.TTL > 0 <;> by_cases h2 : role.MaxTTL > 0 <;> simp [h1, h2]

theorem tokenRenew_applies_positive_role_values_witness :
    mapGet "role_name" issuedSecret.InternalData = some (.str "svc") ∧
    getRole testRenewStorage "svc" = .ok (some testRenewRole) ∧
    (∃ lease, tokenRenew testRenewStorage issuedSecret
        = .done (.ok (some { Secret := some lease })) ∧
      lease.TTL = (if testRenewRole.TTL > 0 then testRenewRole.TTL else issuedSecret.TTL) ∧
      lease.MaxTTL
        = (if testRenewRole.MaxTTL > 0 then testRenewRole.MaxTTL else issuedSecret.MaxTTL) ∧
      lease.InternalData = issuedSecret.InternalData) :=
  ⟨by decide, by decide,
   tokenRenew_applies_positive_role_values testRenewStorage issuedSecret "svc" testRenewRole
    (by decide) (by decide)⟩

/-- C9: `tokenRenew` fails with an error (and no lease update) when the
lease's internal data has no `role_name` entry, fails with an error when the
named role is absent from the role store, and succeeds whenever `role_name`
is a string naming a role that is present and readable. -/
theorem tokenRenew_role_binding (s : Storage) (secret : Secret) :
    (mapGet "role_name" secret.InternalData = none →
      tokenRenew s secret = .done (.error "secret is missing role_name internal data")) ∧
    (∀ name, mapGet "role_name" secret.InternalData = some (.str name) →
      getRole s name = .ok none →
      tokenRenew s secret = .done (.error "error retrieving role: role is nil")) ∧
    (∀ name role, mapGet "role_name" secret.InternalData = some (.str name) →
      getRole s name = .ok (some role) →
      ∃ resp, tokenRenew s secret = .done (.ok (some resp))) := by
  refine ⟨?_, ?_, ?_⟩
  · intro h
    simp [tokenRenew, h]
  · intro name h hr
    simp [tokenRenew, h, hr]
  · intro name role h hr
    simp [tokenRenew, h, hr]

theorem tokenRenew_role_binding_witness :
    tokenRenew exampleStorage unboundSecret
      = .done (.error "secret is missing role_name internal data") ∧
    tokenRenew {} issuedSecret = .done (.error "error retrieving role: role is nil") ∧
    (∃ resp, tokenRenew exampleStorage issuedSecret = .done (.ok (some resp))) :=
  ⟨(tokenRenew_role_binding exampleStorage unboundSecret).1 (by decide),
   (tokenRenew_role_binding {} issuedSecret).2.1 "svc" (by decide) (by decide),
   (tokenRenew_role_binding exampleStorage issuedSecret).2.2 "svc" zeroTTLRole
      (by decide) (by decide)⟩

/-! ## Issuance: the expiry hint -/

theorem FormatRFC3339Nano_ne_empty (t : Time) : t.FormatRFC3339Nano ≠ "" := by
  intro h
  have hl := congrArg String.length h
  simp only [Time.FormatRFC3339Nano, formatDateTime, String.length_append] at hl
  have hT : "T".length = 1 := by decide
  have h0 : "".length = 0 := by decide
  omega

theorem makeRequest_create (c : alertaClient) (w : Remote) (user : String)
    (scopes : List String) (text expireTime : String) :
    c.makeRequest w "POST" "/key" (some (createKeyRequestBody user scopes text expireTime))
      = ({ w with log := w.log ++ [createKeyRequest c user scopes text expireTime] },
         w.respond w.log (createKeyRequest c user scopes text expireTime)) := rfl

theorem createKey_log (c : alertaClient) (w : Remote) (user : String)
    (scopes : List String) (text expireTime : String) :
    (c.createKey w user scopes text expireTime).1.log
      = w.log ++ [createKeyRequest c user scopes text expireTime] := by
  simp only [alertaClient.createKey, makeRequest_create]
  cases w.respond w.log (createKeyRequest c user scopes text expireTime) with
  | transportError err => rfl
  | response code body =>
    by_cases hc : code = 201
    · subst hc
      cases body with
      | unreadable err => rfl
      | invalid err => rfl
      | envelope status data =>
        by_cases hs : status = "ok"
        · simp [hs]
        · simp [hs]
    · simp [hc]

/-- The one request `createToken` makes: its body always has the member
`expireTime`, holding the second clock reading plus the role's max_ttl, in
UTC, in the layout RFC3339Nano. -/
theorem createToken_log (w : Remote) (c : alertaClient) (r : alertaRoleEntry)
    (nowText nowExpiry : Time) (parseRFC3339 : String → Except String Time) :
    (createToken w c r nowText nowExpiry parseRFC3339).1.log = w.log ++
      [{ method := "POST", url := c.ApiURL ++ "/key", authorization := "Key " ++ c.AuthKey,
         contentType := "application/json",
         body := some [("user", .str r.User), ("scopes", .strs r.Scopes),
           ("text", .str (r.Description ++ " at " ++ nowText.FormatRFC3339)),
           ("expireTime", .str (nowExpiry.Add r.MaxTTL).UTC.FormatRFC3339Nano)] }] := by
  have hlog := createKey_log c w r.User r.Scopes
    (r.Description ++ " at " ++ nowText.FormatRFC3339)
    ((nowExpiry.Add r.MaxTTL).UTC.FormatRFC3339Nano)
  have hbody : createKeyRequest c r.User r.Scopes
      (r.Description ++ " at " ++ nowText.FormatRFC3339)
      ((nowExpiry.Add r.MaxTTL).UTC.FormatRFC3339Nano) =
      { method := "POST", url := c.ApiURL ++ "/key", authorization := "Key " ++ c.AuthKey,
        contentType := "application/json",
        body := some [("user", .str r.User), ("scopes", .strs r.Scopes),
          ("text", .str (r.Description ++ " at " ++ nowText.FormatRFC3339)),
          ("expireTime", .str (nowExpiry.Add r.MaxTTL).UTC.FormatRFC3339Nano)] } := by
    simp [createKeyRequest, createKeyRequestBody, FormatRFC3339Nano_ne_empty]
  rw [hbody] at hlog
  simp only [createToken]
  cases hk : c.createKey w r.User r.Scopes (r.Description ++ " at " ++ nowText.FormatRFC3339)
      ((nowExpiry.Add r.MaxTTL).UTC.FormatRFC3339Nano) with
  | mk w' res =>
    rw [hk] at hlog
    cases res with
    | error e => exact hlog
    | ok response =>
      dsimp only at hlog ⊢
      cases parseRFC3339 response.ExpireTime <;> exact hlog

/-- C10: evaluation of `createToken` for a role whose max_ttl is zero, at the
clock reading 2023-11-14T22:13:20Z: the body sent to `POST /key` carries
`expireTime`, set to the clock reading itself. -/
theorem createToken_zero_max_ttl_sends_expireTime
    (w : Remote) (parseRFC3339 : String → Except String Time) :
    zeroTTLRole.MaxTTL = 0 ∧
    (createToken w exampleClient zeroTTLRole exampleNow exampleNow parseRFC3339).1.log
      = w.log ++
        [{ method := "POST", url := "https://alerta.example/api/key",
           authorization := "Key K", contentType := "application/json",
           body := some [("user", .str "svc@x"), ("scopes", .strs ["write:alerts"]),
             ("text", .str "Created by Vault at 2023-11-14T22:13:20Z"),
             ("expireTime", .str "2023-11-14T22:13:20Z")] }] := by
  refine ⟨rfl, ?_⟩
  rw [createToken_log]
  congr 1

/-! ## The remote client -/

theorem createKey_ok_iff (c : alertaClient) (w : Remote) (user : String)
    (scopes : List String) (text expireTime : String) (cred : CreateKeyResponse) :
    (c.createKey w user scopes text expireTime).2 = .ok cred ↔
      w.respond w.log (createKeyRequest c user scopes text expireTime)
        = .response 201 (.envelope "ok" cred) := by
  simp only [alertaClient.createKey, makeRequest_create]
  cases w.respond w.log (createKeyRequest c user scopes text expireTime) with
  | transportError err => simp
  | response code body =>
    by_cases hc : code = 201
    · subst hc
      cases body with
      | unreadable err => simp
      | invalid err => simp
      | envelope status data =>
        obtain ⟨i, k, e⟩ := data
        by_cases hs : status = "ok"
        · simp [hs]
        · simp [hs]
    · simp [hc]

theorem createKey_ok_or_error (c : alertaClient) (w : Remote) (user : String)
    (scopes : List String) (text expireTime : String) :
    (∃ cred, (c.createKey w user scopes text expireTime).2 = .ok cred) ∨
      ∃ msg, (c.createKey w user scopes text expireTime).2 = .error msg := by
  cases (c.createKey w user scopes text expireTime).2 with
  | error e => exact Or.inr ⟨e, rfl⟩
  | ok v => exact Or.inl ⟨v, rfl⟩

theorem deleteKey_ok_iff (c : alertaClient) (w : Remote) (id : String) (r : DeleteKeyResponse) :
    (c.deleteKey w id).2 = .ok r ↔
      r = { Status := "ok" } ∧
        ∃ data, w.respond w.log (deleteKeyRequest c id) = .response 200 (.envelope "ok" data) := by
  simp only [alertaClient.deleteKey, makeRequest_delete]
  cases w.respond w.log (deleteKeyRequest c id) with
  | transportError err => simp
  | response code body =>
    by_cases hc : code = 200
    · subst hc
      cases body with
      | unreadable err => simp
      | invalid err => simp
      | envelope status data =>
        by_cases hs : status = "ok"
        · subst hs
          simp [eq_comm]
        · simp [hs]
    · simp [hc]

/-- C14: `createKey` returns a credential exactly when the remote answers
with status code 201 and an envelope of status "ok", and the credential is
the envelope's data (id, key, expireTime) unchanged; `deleteKey` returns
success exactly when the remote answers with status code 200 and an envelope
of status "ok"; in every other case each of them returns an error. -/
theorem createKey_deleteKey_accept_iff (c : alertaClient) (w : Remote) (user : String)
    (scopes : List String) (text expireTime id : String) :
    (∀ cred, (c.createKey w user scopes text expireTime).2 = .ok cred ↔
      w.respond w.log (createKeyRequest c user scopes text expireTime)
        = .response 201 (.envelope "ok" cred)) ∧
    ((¬ ∃ cred, w.respond w.log (createKeyRequest c user scopes text expireTime)
        = .response 201 (.envelope "ok" cred)) →
      ∃ msg, (c.createKey w user scopes text expireTime).2 = .error msg) ∧
    ((∃ r, (c.deleteKey w id).2 = .ok r) ↔
      ∃ data, w.respond w.log (deleteKeyRequest c id)
        = .response 200 (.envelope "ok" data)) ∧
    ((¬ ∃ data, w.respond w.log (deleteKeyRequest c id)
        = .response 200 (.envelope "ok" data)) →
      ∃ msg, (c.deleteKey w id).2 = .error msg) := by
  refine ⟨fun cred => createKey_ok_iff c w user scopes text expireTime cred, ?_, ?_, ?_⟩
  · intro hno
    rcases createKey_ok_or_error c w user scopes text expireTime with ⟨cred, h⟩ | h
    · exact absurd ⟨cred, (createKey_ok_iff c w user scopes text expireTime cred).mp h⟩ hno
    · exact h
  · constructor
    · rintro ⟨r, hr⟩
      exact ((deleteKey_ok_iff c w id r).mp hr).2
    · rintro ⟨data, hd⟩
      exact ⟨{ Status := "ok" }, (deleteKey_ok_iff c w id _).mpr ⟨rfl, data, hd⟩⟩
  · intro hno
    cases hr : (c.deleteKey w id).2 with
    | error e => exact ⟨e, rfl⟩
    | ok r => exact absurd ((deleteKey_ok_iff c w id r).mp hr).2 hno

theorem createKey_deleteKey_accept_iff_witness :
    (exampleClient.createKey okRemote "svc@x" ["write:alerts"] "note" "").2
      = .ok { ID := "id-1", Key := "secret-1", ExpireTime := "2023-11-14T22:13:20Z" } ∧
    (∃ msg, (exampleClient.createKey failingRemote "svc@x" ["write:alerts"] "note" "").2
      = .error msg) ∧
    (∃ r, (exampleClient.deleteKey okRemote "id-1").2 = .ok r) ∧
    (∃ msg, (exampleClient.deleteKey failingRemote "id-1").2 = .error msg) :=
  ⟨((createKey_deleteKey_accept_iff exampleClient okRemote "svc@x" ["write:alerts"] "note" ""
      "id-1").1 _).mpr (by decide),
   (createKey_deleteKey_accept_iff exampleClient failingRemote "svc@x" ["write:alerts"] "note"
      "" "id-1").2.1 (by rintro ⟨cred, h⟩; simp [failingRemote] at h),
   (createKey_deleteKey_accept_iff exampleClient okRemote "svc@x" ["write:alerts"] "note" ""
      "id-1").2.2.1.mpr ⟨{}, by decide⟩,
   (createKey_deleteKey_accept_iff exampleClient failingRemote "svc@x" ["write:alerts"] "note"
      "" "id-1").2.2.2 (by rintro ⟨data, h⟩; simp [failingRemote] at h)⟩

/-! ## Issuance -/

theorem createToken_ok (w w' : Remote) (c : alertaClient) (r : alertaRoleEntry)
    (nowText nowExpiry : Time) (parseRFC3339 : String → Except String Time)
    (token : alertaToken)
    (h : createToken w c r nowText nowExpiry parseRFC3339 = (w', .ok token)) :
    ∃ cred expireTime,
      w.respond w.log (createKeyRequest c r.User r.Scopes
          (r.Description ++ " at " ++ nowText.FormatRFC3339)
          ((nowExpiry.Add r.MaxTTL).UTC.FormatRFC3339Nano))
        = .response 201 (.envelope "ok" cred) ∧
      parseRFC3339 cred.ExpireTime = .ok expireTime ∧
      token = { ID := cred.ID, Key := cred.Key, ExpireTime := expireTime, RoleName := r.Name } := by
  simp only [createToken] at h
  cases hk : c.createKey w r.User r.Scopes (r.Description ++ " at " ++ nowText.FormatRFC3339)
      ((nowExpiry.Add r.MaxTTL).UTC.FormatRFC3339Nano) with
  | mk w1 res =>
    rw [hk] at h
    cases res with
    | error e => simp at h
    | ok response =>
      dsimp only at h
      cases hp : parseRFC3339 response.ExpireTime with
      | error e =>
        rw [hp] at h
        simp at h
      | ok expireTime =>
        rw [hp] at h
        simp only [Prod.mk.injEq, Except.ok.injEq] at h
        refine ⟨response, expireTime, ?_, hp, h.2.symm⟩
        have h2 : (c.createKey w r.User r.Scopes
            (r.Description ++ " at " ++ nowText.FormatRFC3339)
            ((nowExpiry.Add r.MaxTTL).UTC.FormatRFC3339Nano)).2 = .ok response := by rw [hk]
        exact (createKey_ok_iff _ _ _ _ _ _ _).mp h2

theorem pathKeysRead_ok (b : alertaBackend) (s : Storage) (w : Remote) (R : String)
    (nowText nowExpiry : Time) (parseRFC3339 : String → Except String Time)
    (resp : Response)
    (h : (pathKeysRead b s w R nowText nowExpiry parseRFC3339).2.2 = .ok (some resp)) :
    ∃ role client cred expireTime lease,
      getRole s R = .ok (some role) ∧ (getClient b s).2 = .ok client ∧
      w.respond w.log (createKeyRequest client role.User role.Scopes
          (role.Description ++ " at " ++ nowText.FormatRFC3339)
          ((nowExpiry.Add role.MaxTTL).UTC.FormatRFC3339Nano))
        = .response 201 (.envelope "ok" cred) ∧
      parseRFC3339 cred.ExpireTime = .ok expireTime ∧
      resp.Data = [("alerta_api_key", .str cred.Key), ("alerta_api_key_id", .str cred.ID),
        ("expire_time", .time expireTime), ("role_name", .str R)] ∧
      resp.Secret = some lease ∧
      lease.InternalData = [("alerta_api_key", .str cred.Key),
        ("alerta_api_key_id", .str cred.ID), ("role_name", .str R),
        ("secret_type", .str "alerta_token")] ∧
      lease.TTL = (if role.TTL > 0 then role.TTL else alertaTokenSecret.DefaultDuration) ∧
      lease.MaxTTL = (if role.MaxTTL > 0 then role.MaxTTL else 0) := by
  simp only [pathKeysRead] at h
  cases hr : getRole s R with
  | error e =>
    rw [hr] at h
    simp at h
  | ok stored =>
    rw [hr] at h
    cases stored with
    | none => simp at h
    | some role =>
      simp only [createUserCreds] at h
      cases hc : getClient b s with
      | mk b1 rc =>
        rw [hc] at h
        cases rc with
        | error e => simp at h
        | ok client =>
          dsimp only at h
          cases ht : createToken w client { role with Name := R } nowText nowExpiry
              parseRFC3339 with
          | mk w1 rt =>
            rw [ht] at h
            cases rt with
            | error e => simp at h
            | ok token =>
              obtain ⟨cred, expireTime, hresp, hparse, htok⟩ :=
                createToken_ok w w1 client { role with Name := R } nowText nowExpiry
                  parseRFC3339 token ht
              simp only [Except.ok.injEq, Option.some.injEq] at h
              subst h
              subst htok
              by_cases h1 : role.TTL > 0 <;> by_cases h2 : role.MaxTTL > 0 <;>
                exact ⟨role, client, cred, expireTime, _, rfl, rfl, hresp, hparse,
                  by simp [h1, h2, FrameworkSecret.Response, Response.setTTL,
                    Response.setMaxTTL],
                  by simp [h1, h2, FrameworkSecret.Response, Response.setTTL,
                      Response.setMaxTTL]; rfl,
                  by simp [mapSet, alertaTokenSecret, alertaTokenType],
                  by simp [h1], by simp [h2]⟩

/-- C11 (as stated, refuted): a successful issuance for the role `svc`; the
lease's internal data has four keys, the three the handler supplies and the
framework's `secret_type`. -/
theorem pathKeysRead_internal_data_has_secret_type :
    (pathKeysRead {} testRenewStorage okRemote "svc" exampleNow exampleNow exampleParse).2.2
      = .ok (some issuedResponse) ∧
    issuedResponse.Secret.map (fun lease => lease.InternalData.map (fun e => e.1))
      = some ["alerta_api_key", "alerta_api_key_id", "role_name", "secret_type"] := by
  decide

/-- C11 (amended): for every successful issuance for the role name `R`, the
remote answered the create request with 201 and an envelope of status "ok"
whose data is `cred`; the response's public data has exactly the keys
`alerta_api_key`, `alerta_api_key_id`, `expire_time` and `role_name`; the
lease's internal data has exactly the keys `alerta_api_key`,
`alerta_api_key_id`, `role_name` and the `secret_type` the framework adds;
in both, the ID is `cred.ID`, the key is `cred.Key` and the role name is `R`. -/
theorem pathKeysRead_response_data (b : alertaBackend) (s : Storage) (w : Remote)
    (R : String) (nowText nowExpiry : Time) (parseRFC3339 : String → Except String Time)
    (resp : Response)
    (h : (pathKeysRead b s w R nowText nowExpiry parseRFC3339).2.2 = .ok (some resp)) :
    ∃ role client cred expireTime lease,
      getRole s R = .ok (some role) ∧ (getClient b s).2 = .ok client ∧
      w.respond w.log (createKeyRequest client role.User role.Scopes
          (role.Description ++ " at " ++ nowText.FormatRFC3339)
          ((nowExpiry.Add role.MaxTTL).UTC.FormatRFC3339Nano))
        = .response 201 (.envelope "ok" cred) ∧
      parseRFC3339 cred.ExpireTime = .ok expireTime ∧
      resp.Data = [("alerta_api_key", .str cred.Key), ("alerta_api_key_id", .str cred.ID),
        ("expire_time", .time expireTime), ("role_name", .str R)] ∧
      resp.Secret = some lease ∧
      lease.InternalData = [("alerta_api_key", .str cred.Key),
        ("alerta_api_key_id", .str cred.ID), ("role_name", .str R),
        ("secret_type", .str "alerta_token")] := by
  obtain ⟨role, client, cred, expireTime, lease, h1, h2, h3, h4, h5, h6, h7, _, _⟩ :=
    pathKeysRead_ok b s w R nowText nowExpiry parseRFC3339 resp h
  exact ⟨role, client, cred, expireTime, lease, h1, h2, h3, h4, h5, h6, h7⟩

theorem pathKeysRead_response_data_witness :
    (pathKeysRead {} testRenewStorage okRemote "svc" exampleNow exampleNow exampleParse).2.2
      = .ok (some issuedResponse) ∧
    (∃ role client cred expireTime lease,
      getRole testRenewStorage "svc" = .ok (some role) ∧
      (getClient {} testRenewStorage).2 = .ok client ∧
      okRemote.respond okRemote.log (createKeyRequest client role.User role.Scopes
          (role.Description ++ " at " ++ exampleNow.FormatRFC3339)
          ((exampleNow.Add role.MaxTTL).UTC.FormatRFC3339Nano))
        = .response 201 (.envelope "ok" cred) ∧
      exampleParse cred.ExpireTime = .ok expireTime ∧
      issuedResponse.Data = [("alerta_api_key", .str cred.Key),
        ("alerta_api_key_id", .str cred.ID), ("expire_time", .time expireTime),
        ("role_name", .str "svc")] ∧
      issuedResponse.Secret = some lease ∧
      lease.InternalData = [("alerta_api_key", .str cred.Key),
        ("alerta_api_key_id", .str cred.ID), ("role_name", .str "svc"),
        ("secret_type", .str "alerta_token")]) :=
  ⟨by decide,
   pathKeysRead_response_data {} testRenewStorage okRemote "svc" exampleNow exampleNow
    exampleParse issuedResponse (by decide)⟩

/-- C12: for every successful issuance, the lease's TTL is the role's ttl
when that is greater than zero and otherwise the TTL the framework's
`Secret.Response` gave the lease (the secret's default duration); the lease's
MaxTTL is the role's max_ttl when that is greater than zero and otherwise the
MaxTTL the framework gave it.  A role value of zero never overwrites a lease
field. -/
theorem pathKeysRead_lease_ttls (b : alertaBackend) (s : Storage) (w : Remote)
    (R : String) (nowText nowExpiry : Time) (parseRFC3339 : String → Except String Time)
    (resp : Response)
    (h : (pathKeysRead b s w R nowText nowExpiry parseRFC3339).2.2 = .ok (some resp)) :
    ∃ role lease fwTTL fwMaxTTL,
      getRole s R = .ok (some role) ∧ resp.Secret = some lease ∧
      (∀ data internal, (alertaTokenSecret.Response data internal).Secret.map
          (fun l => (l.TTL, l.MaxTTL)) = some (fwTTL, fwMaxTTL)) ∧
      lease.TTL = (if role.TTL > 0 then role.TTL else fwTTL) ∧
      lease.MaxTTL = (if role.MaxTTL > 0 then role.MaxTTL else fwMaxTTL) := by
  obtain ⟨role, client, cred, expireTime, lease, h1, _, _, _, _, h6, _, h8, h9⟩ :=
    pathKeysRead_ok b s w R nowText nowExpiry parseRFC3339 resp h
  exact ⟨role, lease, alertaTokenSecret.DefaultDuration, 0, h1, h6,
    fun _ _ => rfl, h8, h9⟩

theorem pathKeysRead_lease_ttls_witness :
    (pathKeysRead {} testRenewStorage okRemote "svc" exampleNow exampleNow exampleParse).2.2
      = .ok (some issuedResponse) ∧
    getRole testRenewStorage "svc" = .ok (some testRenewRole) ∧
    testRenewRole.TTL = 60000000000 ∧ testRenewRole.MaxTTL = 18000000000000 ∧
    (∃ lease, issuedResponse.Secret = some lease ∧
      lease.TTL = 60000000000 ∧ lease.MaxTTL = 18000000000000) ∧
    (pathKeysRead {} exampleStorage okRemote "svc" exampleNow exampleNow exampleParse).2.2
      = .ok (some zeroTTLIssuedResponse) ∧
    getRole exampleStorage "svc" = .ok (some zeroTTLRole) ∧
    zeroTTLRole.TTL = 0 ∧ zeroTTLRole.MaxTTL = 0 ∧
    (∃ lease fwTTL fwMaxTTL, zeroTTLIssuedResponse.Secret = some lease ∧
      (alertaTokenSecret.Response [] []).Secret.map (fun l => (l.TTL, l.MaxTTL))
        = some (fwTTL, fwMaxTTL) ∧
      lease.TTL = fwTTL ∧ lease.MaxTTL = fwMaxTTL) := by
  have hpos : getRole testRenewStorage "svc" = .ok (some testRenewRole) := by decide
  have hzero : getRole exampleStorage "svc" = .ok (some zeroTTLRole) := by decide
  obtain ⟨role, lease, fwTTL, fwMaxTTL, hrole, hsec, _, httl, hmax⟩ :=
    pathKeysRead_lease_ttls {} testRenewStorage okRemote "svc" exampleNow exampleNow
      exampleParse issuedResponse (by decide)
  obtain ⟨role0, lease0, fwTTL0, fwMaxTTL0, hrole0, hsec0, hfw0, httl0, hmax0⟩ :=
    pathKeysRead_lease_ttls {} exampleStorage okRemote "svc" exampleNow exampleNow
      exampleParse zeroTTLIssuedResponse (by decide)
  rw [hpos] at hrole
  rw [hzero] at hrole0
  simp only [Except.ok.injEq, Option.some.injEq] at hrole hrole0
  subst hrole
  subst hrole0
  have h1 : testRenewRole.TTL > 0 := by decide
  have h2 : testRenewRole.MaxTTL > 0 := by decide
  have h3 : ¬ zeroTTLRole.TTL > 0 := by decide
  have h4 : ¬ zeroTTLRole.MaxTTL > 0 := by decide
  rw [if_pos h1] at httl
  rw [if_pos h2] at hmax
  rw [if_neg h3] at httl0
  rw [if_neg h4] at hmax0
  exact ⟨by decide, hpos, by decide, by decide, ⟨lease, hsec, httl, hmax⟩,
    by decide, hzero, by decide, by decide,
    ⟨lease0, fwTTL0, fwMaxTTL0, hsec0, hfw0 [] [], httl0, hmax0⟩⟩

/-- C13: for a role name with no entry in the role store, `pathKeysRead`
returns an error, the backend (and with it the client cache) is the one it
was given, and no request was made to the remote. -/
theorem pathKeysRead_unknown_role (b : alertaBackend) (s : Storage) (w : Remote)
    (R : String) (nowText nowExpiry : Time) (parseRFC3339 : String → Except String Time)
    (habsent : s.Get ("role/" ++ R) = .ok none) :
    ∃ msg, pathKeysRead b s w R nowText nowExpiry parseRFC3339 = (b, w, .error msg) := by
  by_cases hn : R = ""
  · exact ⟨"error retrieving role: missing role name", by simp [pathKeysRead, getRole, hn]⟩
  · exact ⟨"error retrieving role: role is nil",
      by simp [pathKeysRead, getRole, hn, habsent]⟩

theorem pathKeysRead_unknown_role_witness :
    exampleStorage.Get ("role/" ++ "unknown") = .ok none ∧
    (∃ msg, pathKeysRead {} exampleStorage okRemote "unknown" exampleNow exampleNow
      exampleParse = ({}, okRemote, .error msg)) :=
  ⟨by decide,
   pathKeysRead_unknown_role {} exampleStorage okRemote "unknown" exampleNow exampleNow
    exampleParse (by decide)⟩

/-! ## Configuration and the client cache -/

theorem getConfig_put (s : Storage) (c : alertaConfig) :
    getConfig { entries := putEntries configStoragePath (.configJSON c) s.entries }
      = .ok (some c) := by
  simp [getConfig, Storage.Get, mapGet_putEntries_self, StorageEntry.decodeConfig]

theorem getClient_of_empty_cache (b : alertaBackend) (s : Storage) (hempty : b.client = none) :
    getClient b s = getClientLocked b s := by
  simp [getClient, hempty]

theorem getClient_valid_config (b : alertaBackend) (s : Storage) (c : alertaConfig)
    (hempty : b.client = none) (hcfg : getConfig s = .ok (some c))
    (hurl : c.ApiURL ≠ "") (hkey : c.AuthKey ≠ "") :
    getClient b s = ({ client := some { ApiURL := c.ApiURL, AuthKey := c.AuthKey } },
      .ok { ApiURL := c.ApiURL, AuthKey := c.AuthKey }) := by
  rw [getClient_of_empty_cache b s hempty]
  simp [getClientLocked, hcfg, hempty, newClient, hurl, hkey]

/-- C15: with an empty cache and a stored configuration that is absent or has
an empty api_url or an empty auth_key, `getClient` returns an error and the
backend it returns is the one it was given, the cache still empty; after a
configuration with both fields non-empty is then written, `getClient`
succeeds and caches and returns the client built from that configuration. -/
theorem getClient_failure_not_cached (b : alertaBackend) (s : Storage)
    (cfg : Option alertaConfig) (url key : String)
    (hempty : b.client = none)
    (hcfg : getConfig s = .ok cfg)
    (hbad : cfg = none ∨ ∃ c, cfg = some c ∧ (c.ApiURL = "" ∨ c.AuthKey = ""))
    (hurl : url ≠ "") (hkey : key ≠ "") :
    (∃ msg, getClient b s = (b, .error msg)) ∧
    (getClient b s).1.client = none ∧
    (pathConfigWrite (getClient b s).1 s .CreateOperation
        { api_url := some url, auth_key := some key }).2.2 = .ok none ∧
    getClient
        (pathConfigWrite (getClient b s).1 s .CreateOperation
          { api_url := some url, auth_key := some key }).1
        (pathConfigWrite (getClient b s).1 s .CreateOperation
          { api_url := some url, auth_key := some key }).2.1
      = ({ client := some { ApiURL := url, AuthKey := key } },
         .ok { ApiURL := url, AuthKey := key }) := by
  obtain ⟨cl⟩ := b
  simp only at hempty
  subst hempty
  have hfail : ∃ msg, getClient { client := none } s = ({ client := none }, .error msg) := by
    rcases hbad with h | ⟨c, h, hc⟩
    · subst h
      exact ⟨"client API URL was not defined",
        by simp [getClient, getClientLocked, hcfg, newClient]⟩
    · subst h
      by_cases hu : c.ApiURL = ""
      · exact ⟨"client API URL was not defined",
          by simp [getClient, getClientLocked, hcfg, newClient, hu]⟩
      · have hk : c.AuthKey = "" := by
          rcases hc with h | h
          · exact absurd h hu
          · exact h
        exact ⟨"client auth key was not defined",
          by simp [getClient, getClientLocked, hcfg, newClient, hu, hk]⟩
  obtain ⟨msg, hmsg⟩ := hfail
  have hw : pathConfigWrite { client := none } s .CreateOperation
      { api_url := some url, auth_key := some key }
      = ({ client := none },
         { entries := putEntries configStoragePath
             (.configJSON { ApiURL := url, AuthKey := key }) s.entries },
         .ok none) := by
    simp [pathConfigWrite, hcfg, mergeConfigFields, bind, Except.bind, pure, Except.pure,
      Storage.Put, alertaBackend.reset]
  refine ⟨⟨msg, hmsg⟩, ?_, ?_, ?_⟩
  · rw [hmsg]
  · rw [hmsg, hw]
  · rw [hmsg, hw]
    exact getClient_valid_config _ _ { ApiURL := url, AuthKey := key } rfl
      (getConfig_put s _) hurl hkey

theorem getClient_failure_not_cached_witness :
    (∃ msg, getClient {} invalidConfigStorage = ({}, .error msg)) ∧
    (getClient {} invalidConfigStorage).1.client = none ∧
    (pathConfigWrite (getClient {} invalidConfigStorage).1 invalidConfigStorage
        .CreateOperation { api_url := some "https://alerta.example/api",
                           auth_key := some "K" }).2.2 = .ok none ∧
    getClient
        (pathConfigWrite (getClient {} invalidConfigStorage).1 invalidConfigStorage
          .CreateOperation { api_url := some "https://alerta.example/api",
                             auth_key := some "K" }).1
        (pathConfigWrite (getClient {} invalidConfigStorage).1 invalidConfigStorage
          .CreateOperation { api_url := some "https://alerta.example/api",
                             auth_key := some "K" }).2.1
      = ({ client := some { ApiURL := "https://alerta.example/api", AuthKey := "K" } },
         .ok { ApiURL := "https://alerta.example/api", AuthKey := "K" }) :=
  getClient_failure_not_cached {} invalidConfigStorage
    (some { ApiURL := "https://alerta.example/api", AuthKey := "" })
    "https://alerta.example/api" "K" rfl (by decide)
    (Or.inr ⟨{ ApiURL := "https://alerta.example/api", AuthKey := "" }, rfl, Or.inr rfl⟩)
    (by decide) (by decide)

/-- C19: for a stored configuration, the response of `pathConfigRead` is the
data `api_url` holding the stored api_url and nothing else, and two storages
whose stored configurations have the same api_url (whatever their auth keys)
give equal responses. -/
theorem pathConfigRead_hides_auth_key (s1 s2 : Storage) (c1 c2 : alertaConfig)
    (h1 : getConfig s1 = .ok (some c1)) (h2 : getConfig s2 = .ok (some c2))
    (hurl : c1.ApiURL = c2.ApiURL) :
    pathConfigRead s1 = .done (.ok (some { Data := [("api_url", .str c1.ApiURL)] })) ∧
    pathConfigRead s1 = pathConfigRead s2 := by
  simp [pathConfigRead, h1, h2, hurl]

theorem pathConfigRead_hides_auth_key_witness :
    getConfig exampleStorage = .ok (some exampleConfig) ∧
    getConfig otherKeyStorage
      = .ok (some { ApiURL := "https://alerta.example/api", AuthKey := "K2" }) ∧
    pathConfigRead exampleStorage
      = .done (.ok (some { Data := [("api_url", .str exampleConfig.ApiURL)] })) ∧
    pathConfigRead exampleStorage = pathConfigRead otherKeyStorage :=
  ⟨by decide, by decide,
   pathConfigRead_hides_auth_key exampleStorage otherKeyStorage exampleConfig
    { ApiURL := "https://alerta.example/api", AuthKey := "K2" } (by decide) (by decide) rfl⟩

/-- C20: evaluation of `pathConfigRead` on the empty storage: `getConfig`
returns the nil configuration without an error, and the handler then reads a
field of it, which is a nil pointer dereference. -/
theorem pathConfigRead_panics_without_config :
    getConfig {} = .ok none ∧
    pathConfigRead {}
      = .panic "runtime error: invalid memory address or nil pointer dereference" := by
  decide

theorem pathConfigWrite_cases (b : alertaBackend) (s : Storage) (op : Operation)
    (data : ConfigFieldData) :
    (∃ msg, pathConfigWrite b s op data = (b, s, .error msg)) ∨
    (∃ c, pathConfigWrite b s op data
      = (b.reset, { entries := putEntries configStoragePath (.configJSON c) s.entries },
         .ok none)) := by
  unfold pathConfigWrite
  cases getConfig s with
  | error e => exact Or.inl ⟨e, rfl⟩
  | ok stored =>
    dsimp only
    by_cases hc : stored = none ∧ op = Operation.UpdateOperation
    · rw [if_pos hc]
      exact Or.inl ⟨_, rfl⟩
    · rw [if_neg hc]
      cases mergeConfigFields (decide (op = Operation.CreateOperation)) data (stored.getD {}) with
      | error e => exact Or.inl ⟨e, rfl⟩
      | ok config => exact Or.inr ⟨config, rfl⟩

theorem cacheConsistent_of_empty (b : alertaBackend) (s : Storage) (h : b.client = none) :
    cacheConsistent b s := Or.inl h

theorem cacheConsistent_getClient (b : alertaBackend) (s : Storage)
    (h : cacheConsistent b s) : cacheConsistent (getClient b s).1 s := by
  cases hb : b.client with
  | some c =>
    have : getClient b s = (b, .ok c) := by simp [getClient, hb]
    rw [this]
    exact h
  | none =>
    rw [getClient_of_empty_cache b s hb]
    unfold getClientLocked
    cases hg : getConfig s with
    | error e => exact h
    | ok config =>
      cases config with
      | none =>
        exact Or.inl (by simp [hb, newClient])
      | some c =>
        by_cases hu : c.ApiURL = ""
        · exact Or.inl (by simp [hb, newClient, hu])
        · by_cases hk : c.AuthKey = ""
          · exact Or.inl (by simp [hb, newClient, hu, hk])
          · exact Or.inr ⟨c, hg, by simp [hb, newClient, hu, hk]⟩

theorem cacheConsistent_apply (st : alertaBackend × Storage) (a : ConfigAction)
    (h : cacheConsistent st.1 st.2) :
    cacheConsistent (ConfigAction.apply st a).1 (ConfigAction.apply st a).2 := by
  cases a with
  | write op data =>
    simp only [ConfigAction.apply]
    rcases pathConfigWrite_cases st.1 st.2 op data with ⟨msg, hm⟩ | ⟨c, hc⟩
    · rw [hm]
      exact h
    · rw [hc]
      exact Or.inl rfl
  | delete => exact Or.inl rfl
  | invalidate key =>
    simp only [ConfigAction.apply, alertaBackend.invalidate]
    by_cases hk : key = "config"
    · rw [if_pos hk]
      exact Or.inl rfl
    · rw [if_neg hk]
      exact h
  | getClient => exact cacheConsistent_getClient st.1 st.2 h

theorem cacheConsistent_run (actions : List ConfigAction) :
    ∀ st : alertaBackend × Storage, cacheConsistent st.1 st.2 →
      cacheConsistent (runConfigActions st actions).1 (runConfigActions st actions).2 := by
  induction actions with
  | nil =>
    intro st h
    exact h
  | cons a rest ih =>
    intro st h
    simp only [runConfigActions, List.foldl_cons]
    exact ih _ (cacheConsistent_apply st a h)

/-- C16: after any sequence of configuration writes, configuration deletes,
invalidate calls and `getClient` calls that starts with an empty cache, the
cached client is absent or has the ApiURL and AuthKey of the stored
configuration; and every configuration write or delete that returns
`(nil, nil)` leaves the cache empty. -/
theorem cache_consistent_after_config_actions (s0 : Storage) (actions : List ConfigAction) :
    cacheConsistent (runConfigActions ({}, s0) actions).1
      (runConfigActions ({}, s0) actions).2 ∧
    (∀ b s op data, (pathConfigWrite b s op data).2.2 = .ok none →
      (pathConfigWrite b s op data).1.client = none) ∧
    (∀ b s, (pathConfigDelete b s).2.2 = .ok none → (pathConfigDelete b s).1.client = none) := by
  refine ⟨cacheConsistent_run actions ({}, s0) (Or.inl rfl), ?_, ?_⟩
  · intro b s op data hok
    rcases pathConfigWrite_cases b s op data with ⟨msg, hm⟩ | ⟨c, hc⟩
    · rw [hm] at hok
      simp at hok
    · rw [hc]
      rfl
  · intro b s _
    rfl

theorem cache_consistent_after_config_actions_witness :
    runConfigActions ({}, {})
        [.write .CreateOperation { api_url := some "https://alerta.example/api",
                                   auth_key := some "K" },
         .getClient,
         .write .UpdateOperation { auth_key := some "K2" },
         .getClient]
      = ({ client := some { ApiURL := "https://alerta.example/api", AuthKey := "K2" } },
         otherKeyStorage) ∧
    cacheConsistent { client := some { ApiURL := "https://alerta.example/api", AuthKey := "K2" } }
      otherKeyStorage :=
  ⟨by decide,
   (cache_consistent_after_config_actions {}
      [.write .CreateOperation { api_url := some "https://alerta.example/api",
                                 auth_key := some "K" },
       .getClient,
       .write .UpdateOperation { auth_key := some "K2" },
       .getClient]).1⟩

/-! ## Concurrent first calls of `getClient` -/

theorem getClientLockedCounted_fst (b : alertaBackend) (s : Storage) :
    (getClientLockedCounted b s).1 = getClientLocked b s := by
  unfold getClientLockedCounted getClientLocked
  cases getConfig s with
  | error e => rfl
  | ok config =>
    dsimp only
    cases newClient (if b.client = none then
        match config with
        | none => some {}
        | some c => some c
      else config) <;> rfl

/-- A caller running alone (its two steps back to back) does what `getClient`
does. -/
theorem runCallers_alone (s : Storage) (b : alertaBackend) (n : Nat) (other : Caller) :
    (runCallers s [false, false] ({ backend := b, constructed := n }, .start, other)).1.backend
      = (getClient b s).1 ∧
    (runCallers s [false, false] ({ backend := b, constructed := n }, .start, other)).2.1
      = .returned (getClient b s).2 := by
  cases hb : b.client with
  | some c => simp [runCallers, Caller.step, getClient, hb]
  | none =>
    simp [runCallers, Caller.step, getClient, hb, getClientLockedCounted_fst]

/-- The section under the exclusive lock constructs a client also when one is
already cached: with a valid stored configuration it builds the client from
the configuration and stores it over the cached one. -/
theorem getClientLockedCounted_when_cached (cached : alertaClient) (s : Storage)
    (c : alertaConfig) (hcfg : getConfig s = .ok (some c))
    (hurl : c.ApiURL ≠ "") (hkey : c.AuthKey ≠ "") :
    getClientLockedCounted { client := some cached } s
      = (({ client := some { ApiURL := c.ApiURL, AuthKey := c.AuthKey } },
          .ok { ApiURL := c.ApiURL, AuthKey := c.AuthKey }), 1) := by
  simp [getClientLockedCounted, hcfg, newClient, hurl, hkey]

/-- C17: evaluation of two first-time callers on an empty cache with the valid
configuration of the scenario, under the schedule in which both pass the check
under the shared lock before either takes the exclusive lock.  After the
first caller's exclusive section the client is cached and one client was
constructed; the second caller's exclusive section constructs and stores a
client again, so two clients are constructed. -/
theorem getClient_second_caller_constructs_again :
    getConfig exampleStorage = .ok (some exampleConfig) ∧
    runCallers exampleStorage [false, true, false] ({}, .start, .start)
      = ({ backend := { client := some exampleClient }, constructed := 1 },
         .returned (.ok exampleClient), .upgrading) ∧
    runCallers exampleStorage [false, true, false, true] ({}, .start, .start)
      = ({ backend := { client := some exampleClient }, constructed := 2 },
         .returned (.ok exampleClient), .returned (.ok exampleClient)) := by
  decide

/-! ## Listing roles -/

theorem role_key_inj (a b : String) (h : "role/" ++ a = "role/" ++ b) : a = b := by
  have h2 := congrArg String.data h
  simp only [String.data_append] at h2
  exact String.ext (List.append_cancel_left h2)

theorem trimKey_append (p rest : List Char) : trimKey p (p ++ rest) = some rest := by
  induction p with
  | nil => cases rest <;> rfl
  | cons c cs ih => simp [trimKey, ih]

theorem firstSegment_none (l : List Char) (h : '/' ∉ l) : firstSegment l = none := by
  induction l with
  | nil => rfl
  | cons c cs ih =>
    simp only [List.mem_cons, not_or] at h
    have hc : c ≠ '/' := fun e => h.1 e.symm
    simp [firstSegment, hc, ih h.2]

theorem strip_role_key (n : String) : String.mk (("role/" ++ n).data.drop 5) = n := by
  have h : ("role/" ++ n).data = ['r', 'o', 'l', 'e', '/'] ++ n.data := by
    rw [String.data_append]
  rw [h]
  rfl

theorem listKeys_role_keys (ks : List String) :
    ∀ out : List String, (∀ k ∈ ks, ∃ n, k = "role/" ++ n ∧ '/' ∉ n.data) →
      listKeys "role/" ks out = out ++ ks.map (fun k => String.mk (k.data.drop 5)) := by
  induction ks with
  | nil =>
    intro out _
    simp [listKeys]
  | cons k rest ih =>
    intro out h
    obtain ⟨n, hk, hn⟩ := h k (List.mem_cons_self _ _)
    have hrest : ∀ k' ∈ rest, ∃ n, k' = "role/" ++ n ∧ '/' ∉ n.data :=
      fun k' hk' => h k' (List.mem_cons_of_mem _ hk')
    have htrim : trimKey "role/".data k.data = some n.data := by
      rw [hk, String.data_append]
      exact trimKey_append _ _
    have hstrip : String.mk (k.data.drop 5) = n := by
      rw [hk]
      exact strip_role_key n
    simp only [listKeys, htrim, firstSegment_none n.data hn, List.map_cons, hstrip]
    rw [ih _ hrest]
    simp

theorem mem_keys_putEntries (k k2 : String) (v : StorageEntry)
    (l : List (String × StorageEntry)) :
    k2 ∈ (putEntries k v l).map (fun e => e.1) ↔ k2 = k ∨ k2 ∈ l.map (fun e => e.1) := by
  induction l with
  | nil => simp [putEntries]
  | cons hd tl ih =>
    obtain ⟨k', v'⟩ := hd
    unfold putEntries
    by_cases h1 : k = k'
    · subst h1
      simp
    · by_cases h2 : k < k'
      · simp [h1, h2]
      · simp only [h1, h2, if_false, List.map_cons, List.mem_cons, ih]
        tauto

theorem sorted_keys_putEntries (k : String) (v : StorageEntry)
    (l : List (String × StorageEntry))
    (h : (l.map (fun e => e.1)).Pairwise (fun a b => a < b)) :
    ((putEntries k v l).map (fun e => e.1)).Pairwise (fun a b => a < b) := by
  induction l with
  | nil => simp [putEntries]
  | cons hd tl ih =>
    obtain ⟨k', v'⟩ := hd
    simp only [List.map_cons, List.pairwise_cons] at h
    unfold putEntries
    by_cases h1 : k = k'
    · subst h1
      simp only [if_true, List.map_cons, List.pairwise_cons]
      exact h
    · by_cases h2 : k < k'
      · simp only [h1, h2, if_true, if_false, List.map_cons, List.pairwise_cons]
        refine ⟨?_, h⟩
        intro a ha
        rcases List.mem_cons.mp ha with rfl | ha
        · exact h2
        · exact lt_trans h2 (h.1 a ha)
      · simp only [h1, h2, if_false, List.map_cons, List.pairwise_cons]
        refine ⟨?_, ih h.2⟩
        intro a ha
        rcases (mem_keys_putEntries k a v tl).mp ha with rfl | ha
        · rcases lt_trichotomy a k' with h3 | h3 | h3
          · exact absurd h3 h2
          · exact absurd h3 h1
          · exact h3
        · exact h.1 a ha

theorem pathRolesWrite_storage (s : Storage) (op : Operation) (d : FieldData) :
    ((pathRolesWrite s op d).2 = .ok none →
      ∃ name v, d.name = some name ∧
        (pathRolesWrite s op d).1 = { entries := putEntries ("role/" ++ name) v s.entries }) ∧
    ((pathRolesWrite s op d).2 ≠ .ok none → (pathRolesWrite s op d).1 = s) := by
  unfold pathRolesWrite
  cases hn : d.name with
  | none => simp
  | some name =>
    dsimp only
    cases getRole s name with
    | error e => simp
    | ok stored =>
      dsimp only
      cases mergeFields (decide (op = Operation.CreateOperation)) d (stored.getD {}) with
      | error e => simp
      | ok merged =>
        dsimp only
        by_cases hc : merged.MaxTTL ≠ 0 ∧ merged.TTL > merged.MaxTTL
        · rw [if_pos hc]
          simp [ErrorResponse]
        · rw [if_neg hc]
          simp only [setRole, Storage.Put]
          exact ⟨fun _ => ⟨name, .roleJSON merged, rfl, rfl⟩, fun h => absurd rfl h⟩

theorem roleStoreInv_apply (st : Storage × List String) (a : RoleAction)
    (hname : ∀ name, a.writeName = some name → '/' ∉ name.data)
    (h : roleStoreInv st) : roleStoreInv (RoleAction.apply st a) := by
  obtain ⟨hsorted, hnodup, hslash, hkeys⟩ := h
  cases a with
  | write op d =>
    have hw := pathRolesWrite_storage st.1 op d
    by_cases hok : (pathRolesWrite st.1 op d).2 = .ok none
    · obtain ⟨name, v, hdn, hst⟩ := hw.1 hok
      have happ : RoleAction.apply st (.write op d)
          = ({ entries := putEntries ("role/" ++ name) v st.1.entries },
             if name ∈ st.2 then st.2 else st.2 ++ [name]) := by
        simp only [RoleAction.apply, hdn, hok, hst]
      rw [happ]
      have hsl := hname name hdn
      refine ⟨sorted_keys_putEntries _ _ _ hsorted, ?_, ?_, ?_⟩
      · by_cases hm : name ∈ st.2
        · simpa [hm] using hnodup
        · simp only [hm, if_false]
          refine List.Nodup.append hnodup (List.nodup_singleton _) ?_
          intro a ha hb
          rw [List.mem_singleton] at hb
          exact hm (hb ▸ ha)
      · intro n hn
        by_cases hm : name ∈ st.2
        · simp only [hm, if_true] at hn
          exact hslash n hn
        · simp only [hm, if_false, List.mem_append, List.mem_singleton] at hn
          rcases hn with hn | hn
          · exact hslash n hn
          · rw [hn]
            exact hsl
      · intro key
        rw [mem_keys_putEntries, hkeys]
        by_cases hm : name ∈ st.2
        · simp only [hm, if_true]
          constructor
          · rintro (rfl | h)
            · exact ⟨name, hm, rfl⟩
            · exact h
          · exact fun h => Or.inr h
        · simp only [hm, if_false, List.mem_append, List.mem_singleton]
          constructor
          · rintro (rfl | ⟨n, hn, rfl⟩)
            · exact ⟨name, Or.inr rfl, rfl⟩
            · exact ⟨n, Or.inl hn, rfl⟩
          · rintro ⟨n, hn | hn, rfl⟩
            · exact Or.inr ⟨n, hn, rfl⟩
            · exact Or.inl (by rw [hn])
    · have hst := hw.2 hok
      have happ : RoleAction.apply st (.write op d) = (st.1, st.2) := by
        simp only [RoleAction.apply]
        cases hdn : d.name with
        | none => simp [hst]
        | some name =>
          cases hr : (pathRolesWrite st.1 op d).2 with
          | error e => simp [hst]
          | ok r =>
            cases r with
            | none => exact absurd hr hok
            | some resp => simp [hst]
      rw [happ]
      exact ⟨hsorted, hnodup, hslash, hkeys⟩
  | delete name =>
    have happ : RoleAction.apply st (.delete name)
        = ({ entries := st.1.entries.filter (fun e => e.1 ≠ "role/" ++ name) },
           st.2.filter (fun n => n ≠ name)) := by
      simp [RoleAction.apply, pathRolesDelete, Storage.Delete]
    rw [happ]
    refine ⟨?_, hnodup.filter _, ?_, ?_⟩
    · exact hsorted.sublist ((List.filter_sublist _).map _)
    · intro n hn
      exact hslash n (List.mem_of_mem_filter hn)
    · intro key
      have hmem : key ∈ (st.1.entries.filter (fun e => e.1 ≠ "role/" ++ name)).map
            (fun e => e.1)
          ↔ key ∈ st.1.entries.map (fun e => e.1) ∧ key ≠ "role/" ++ name := by
        simp only [List.mem_map, List.mem_filter, decide_eq_true_eq]
        constructor
        · rintro ⟨e, ⟨he, hne⟩, rfl⟩
          exact ⟨⟨e, he, rfl⟩, hne⟩
        · rintro ⟨⟨e, he, rfl⟩, hne⟩
          exact ⟨e, ⟨he, hne⟩, rfl⟩
      simp only at hmem
      rw [hmem, hkeys]
      simp only [List.mem_filter, decide_eq_true_eq]
      constructor
      · rintro ⟨⟨n, hn, rfl⟩, hne⟩
        exact ⟨n, ⟨hn, fun e => hne (by rw [e])⟩, rfl⟩
      · rintro ⟨n, ⟨hn, hne⟩, rfl⟩
        exact ⟨⟨n, hn, rfl⟩, fun e => hne (role_key_inj _ _ e)⟩

theorem roleStoreInv_run (actions : List RoleAction) :
    ∀ st : Storage × List String,
      (∀ a ∈ actions, ∀ name, a.writeName = some name → '/' ∉ name.data) →
      roleStoreInv st → roleStoreInv (runRoleActions st actions) := by
  induction actions with
  | nil =>
    intro st _ h
    exact h
  | cons a rest ih =>
    intro st hn h
    simp only [runRoleActions, List.foldl_cons]
    exact ih _ (fun a' ha' => hn a' (List.mem_cons_of_mem _ ha'))
      (roleStoreInv_apply st a (hn a (List.mem_cons_self _ _)) h)

theorem pathRolesList_of_inv (st : Storage × List String) (h : roleStoreInv st) :
    ∃ keys, pathRolesList st.1 = .ok (some (ListResponse keys)) ∧ keys.Perm st.2 := by
  obtain ⟨hsorted, hnodup, hslash, hkeys⟩ := h
  have hform : ∀ k ∈ st.1.entries.map (fun e => e.1), ∃ n, k = "role/" ++ n ∧ '/' ∉ n.data := by
    intro k hk
    obtain ⟨n, hn, rfl⟩ := (hkeys k).mp hk
    exact ⟨n, rfl, hslash n hn⟩
  refine ⟨(st.1.entries.map (fun e => e.1)).map (fun k => String.mk (k.data.drop 5)), ?_, ?_⟩
  · simp only [pathRolesList, Storage.List]
    rw [listKeys_role_keys _ [] hform]
    simp
  · have hkn : (st.1.entries.map (fun e => e.1)).Nodup :=
      hsorted.imp (fun hab => ne_of_lt hab)
    have hnd : ((st.1.entries.map (fun e => e.1)).map
        (fun k => String.mk (k.data.drop 5))).Nodup := by
      refine List.Nodup.map_on ?_ hkn
      intro k1 hk1 k2 hk2 heq
      obtain ⟨n1, _, rfl⟩ := (hkeys k1).mp hk1
      obtain ⟨n2, _, rfl⟩ := (hkeys k2).mp hk2
      simp only [strip_role_key] at heq
      rw [heq]
    refine (List.perm_ext_iff_of_nodup hnd hnodup).mpr ?_
    intro n
    constructor
    · intro hn
      obtain ⟨k, hk, rfl⟩ := List.mem_map.mp hn
      obtain ⟨n', hn', rfl⟩ := (hkeys k).mp hk
      rw [strip_role_key]
      exact hn'
    · intro hn
      exact List.mem_map.mpr ⟨"role/" ++ n, (hkeys _).mpr ⟨n, hn, rfl⟩, strip_role_key n⟩

theorem liveNames_of_allWritesSucceed (actions : List RoleAction) :
    ∀ st : Storage × List String,
      (actions.filterMap RoleAction.writeName).Nodup →
      (∀ n ∈ actions.filterMap RoleAction.writeName, n ∉ st.2) →
      allWritesSucceed st actions →
      (runRoleActions st actions).2 = st.2 ++ actions.filterMap RoleAction.writeName ∧
      (actions.filterMap RoleAction.writeName).length = actions.length := by
  induction actions with
  | nil =>
    intro st _ _ _
    simp [runRoleActions]
  | cons a rest ih =>
    intro st hnd hfresh hall
    cases a with
    | delete name => exact absurd hall (by simp [allWritesSucceed])
    | write op d =>
      simp only [allWritesSucceed] at hall
      obtain ⟨hok, hrest⟩ := hall
      obtain ⟨name, v, hdn, hst⟩ := (pathRolesWrite_storage st.1 op d).1 hok
      have hfm : (RoleAction.write op d :: rest).filterMap RoleAction.writeName
          = name :: rest.filterMap RoleAction.writeName := by
        simp [List.filterMap_cons, RoleAction.writeName, hdn]
      rw [hfm] at hnd hfresh ⊢
      have hnew : name ∉ st.2 := hfresh name (List.mem_cons_self _ _)
      have happ : (RoleAction.apply st (.write op d)).2 = st.2 ++ [name] := by
        simp only [RoleAction.apply, hdn, hok, hnew, if_false]
      have hnd' := (List.nodup_cons.mp hnd)
      have hfresh' : ∀ n ∈ rest.filterMap RoleAction.writeName,
          n ∉ (RoleAction.apply st (.write op d)).2 := by
        intro n hn
        rw [happ, List.mem_append, List.mem_singleton]
        rintro (h | h)
        · exact hfresh n (List.mem_cons_of_mem _ hn) h
        · exact hnd'.1 (h ▸ hn)
      obtain ⟨h1, h2⟩ := ih (RoleAction.apply st (.write op d)) hnd'.2 hfresh' hrest
      constructor
      · simp only [runRoleActions, List.foldl_cons] at h1 ⊢
        rw [h1, happ]
        simp
      · simp [h2]

/-- C18: after any sequence of role writes and deletes on an empty store
(role names free of `/`, as the path pattern guarantees), `pathRolesList`
returns a response whose data holds under `keys`, in some order and without
repetition, exactly the names whose write succeeded and that were not deleted
since (and no data when there is none); after n creates under n distinct
names that all succeed it holds exactly n keys; and a write rejected with
"ttl cannot be greater than max_ttl" leaves the list as it was, so it adds
no name. -/
theorem pathRolesList_lists_live_roles (actions : List RoleAction)
    (hnames : ∀ a ∈ actions, ∀ name, a.writeName = some name → '/' ∉ name.data) :
    (∃ keys, pathRolesList (runRoleActions ({}, []) actions).1
        = .ok (some { Secret := none,
                      Data := if keys = [] then [] else [("keys", .strs keys)] }) ∧
      keys.Perm (runRoleActions ({}, []) actions).2 ∧ keys.Nodup ∧
      (∀ name, name ∈ keys ↔ name ∈ (runRoleActions ({}, []) actions).2) ∧
      (allWritesSucceed ({}, []) actions →
        (actions.filterMap RoleAction.writeName).Nodup →
        keys.length = actions.length)) ∧
    (∀ s op d, (pathRolesWrite s op d).2
        = .ok (some (ErrorResponse "ttl cannot be greater than max_ttl")) →
      pathRolesList (pathRolesWrite s op d).1 = pathRolesList s) := by
  have hinit : roleStoreInv (({}, []) : Storage × List String) := by
    refine ⟨?_, ?_, ?_, ?_⟩ <;> simp
  have hinv := roleStoreInv_run actions ({}, []) hnames hinit
  obtain ⟨keys, hlist, hperm⟩ := pathRolesList_of_inv _ hinv
  refine ⟨⟨keys, hlist, hperm, hperm.nodup_iff.mpr hinv.2.1, fun name => hperm.mem_iff, ?_⟩,
    ?_⟩
  · intro hall hnd
    obtain ⟨h1, h2⟩ := liveNames_of_allWritesSucceed actions ({}, []) hnd
      (fun n _ => by simp) hall
    rw [hperm.length_eq, h1]
    simpa using h2
  · intro s op d hrej
    have hne : (pathRolesWrite s op d).2 ≠ .ok none := by
      rw [hrej]
      simp
    rw [(pathRolesWrite_storage s op d).2 hne]

theorem pathRolesList_lists_live_roles_witness :
    (∀ a ∈ exampleCreates, ∀ name, a.writeName = some name → '/' ∉ name.data) ∧
    allWritesSucceed ({}, []) exampleCreates ∧
    (runRoleActions ({}, []) exampleCreates).2 = ["svc", "ops"] ∧
    (∃ keys, pathRolesList (runRoleActions ({}, []) exampleCreates).1
        = .ok (some { Secret := none, Data := [("keys", .strs keys)] }) ∧
      keys.length = 2 ∧ "svc" ∈ keys ∧ "ops" ∈ keys) ∧
    (runRoleActions ({}, []) exampleRoleActions).2 = ["ops"] ∧
    pathRolesList (runRoleActions ({}, []) exampleRoleActions).1
      = .ok (some { Secret := none, Data := [("keys", .strs ["ops"])] }) ∧
    pathRolesList {} = .ok (some { Secret := none, Data := [] }) := by
  have hn : ∀ a ∈ exampleCreates, ∀ name, a.writeName = some name → '/' ∉ name.data := by
    intro a ha name hn
    simp only [exampleCreates, List.mem_cons, List.mem_singleton, List.not_mem_nil,
      or_false] at ha
    rcases ha with rfl | rfl <;>
      · simp only [RoleAction.writeName, Option.some.injEq] at hn
        subst hn
        decide
  have hall : allWritesSucceed ({}, []) exampleCreates := ⟨by decide, by decide, trivial⟩
  have hlive : (runRoleActions ({}, []) exampleCreates).2 = ["svc", "ops"] := by decide
  obtain ⟨keys, hk, _, _, hmem, hlen⟩ :=
    (pathRolesList_lists_live_roles exampleCreates hn).1
  have hlen2 : keys.length = 2 := hlen hall (by decide)
  have hne : keys ≠ [] := by
    intro h
    rw [h] at hlen2
    exact absurd hlen2 (by decide)
  rw [if_neg hne] at hk
  have hsvc : "svc" ∈ keys := (hmem "svc").mpr (by rw [hlive]; decide)
  have hops : "ops" ∈ keys := (hmem "ops").mpr (by rw [hlive]; decide)
  exact ⟨hn, hall, hlive, ⟨keys, hk, hlen2, hsvc, hops⟩, by decide, by decide, by decide⟩

end Alerta
